import Mathlib

/-!
Shallow embedding of `keri/app/delegating.py`: the `Boatswain` delegation
coordinator (initiation, completion query, escrow state machine driver) and
the `DelegateRequestHandler` for inbound `/delegate/request` messages.

Stores (LMDB sub-databases) are modelled as association lists with the
LMDB-style operations used by the source: `pin` (overwriting insert),
`rem` (delete), `put` (insert only when absent), and iteration over all
live items.  Machine-level details (qb64 encodings, signatures, transport)
are out of scope per the module boundary: a `Seqner.qb64` key is modelled
by its `sn : Nat`, digests and prefixes by `String`.
-/

deriving instance DecidableEq for Except

namespace Delegating

/-- A serialized key event (`coring.Serder`): identifier prefix `pre`,
sequence number `sn`, and content digest `said`. -/
structure Serder where
  pre : String
  sn : Nat
  said : String
deriving DecidableEq

/-- An anchoring seal `(i, s, d)`; must match exactly inside some event of
the delegator's log for the delegation to be authorized. -/
structure Seal where
  i : String
  s : Nat
  d : String
deriving DecidableEq

/-- An event in a delegator's key event log, carrying the seals it anchors
(`db.findAnchoringEvent` searches these). -/
structure DEvent where
  sn : Nat
  said : String
  seals : List Seal
deriving DecidableEq

/-- Verified key state of an identifier (`eventing.Kever`), restricted to
the fields the module reads: prefix, current sequence number, digest of the
current latest event (`kever.serder.said`), delegator prefix, witness set. -/
structure Kever where
  prefixer : String
  sn : Nat
  serderSaid : String
  delegator : String
  wits : List String
deriving DecidableEq

/-- Local identifier habitat (`habbing.Hab` / `habbing.GroupHab`), restricted
to what `Boatswain.delegation` reads: whether it is a group hab, the group
member hab used for sending (`mhab`, by its prefix), the group signing-member
prefixes (`smids`), the hab's kever, and its own events indexed by `sn`
(`makeOwnEvent`). -/
structure Hab where
  pre : String
  isGroup : Bool
  mhab : String
  smids : List String
  kever : Kever
  ownEvents : List Serder
deriving DecidableEq

/-- A receipt-collection request or completion cue `{pre, sn}` exchanged
with the `Receiptor` (`witDoer.msgs` / `witDoer.cues`). -/
structure Cue where
  pre : String
  sn : Nat
deriving DecidableEq

/-- Payload of the `/delegate/request` exn message: `delpre`, the key event
dict `ked` (modelled by the event's fields), and the optional `aids` list;
`none` means the `aids` key is absent from the payload dict. -/
structure ExnPayload where
  delpre : String
  ked : Serder
  aids : Option (List String)
deriving DecidableEq

/-- A peer-to-peer exn envelope: route plus payload. -/
structure Exn where
  route : String
  payload : ExnPayload
deriving DecidableEq

/-- Body of a message handed to the `Poster`: either the delegation-request
exn envelope or the raw delegated event. -/
inductive SendBody where
  | exnMsg (e : Exn)
  | evtMsg (s : Serder)
deriving DecidableEq

/-- A message handed to the `Poster` (`postman.send`): sending hab, destination
prefix, topic, body. -/
structure Send where
  src : String
  dest : String
  topic : String
  body : SendBody
deriving DecidableEq

/-- A witness anchor query issued through the `WitnessInquisitor`
(`witq.query`): sending hab, queried prefix, anchor seal. -/
structure WitQuery where
  src : String
  pre : String
  anchor : Seal
deriving DecidableEq

/-- Payload dict of an inbound delegation-request message; `none` models an
absent key. -/
structure ReqPayload where
  ked : Option Serder
  delpre : Option String
  aids : Option (List String)
deriving DecidableEq

/-- An inbound message as delivered to `DelegateRequestHandler.do`:
`{pre: prefixer, payload: {...}}`, with `none` modelling absent keys. -/
structure ReqMsg where
  pre : Option String
  payload : Option ReqPayload
deriving DecidableEq

/-- A notification record handed to the `Notifier` (`notifier.add`). -/
structure Note where
  src : String
  r : String
  delpre : String
  ked : Serder
  aids : Option (List String)
deriving DecidableEq

/-- Association-list lookup (LMDB `get`): first entry with the given key. -/
def alookup {α β : Type} [DecidableEq α] : List (α × β) → α → Option β
  | [], _ => none
  | (k, v) :: rest, a => if k = a then some v else alookup rest a

/-- LMDB `rem`: delete every entry at the given key. -/
def arem {α β : Type} [DecidableEq α] (m : List (α × β)) (a : α) : List (α × β) :=
  m.filter (fun kv => decide (kv.1 ≠ a))

/-- LMDB `pin`: overwriting insert. -/
def apin {α β : Type} [DecidableEq α] (m : List (α × β)) (a : α) (b : β) : List (α × β) :=
  arem m a ++ [(a, b)]

/-- LMDB `put`: insert only when the key is absent (no overwrite). -/
def aput {α β : Type} [DecidableEq α] (m : List (α × β)) (a : α) (b : β) : List (α × β) :=
  match alookup m a with
  | some _ => m
  | none => m ++ [(a, b)]

/-- Full state touched by the module: `hby.habs`, `hby.kevers`, the three
delegation stores `dune` (unanchored escrow), `dpwe` (partial-witness
escrow), `cdel` (completion index keyed `(pre, sn)`), the authorizer-seal
store `aes` keyed by digest key, the witness receipt signatures `wigs`
(stored sigs per digest key), the per-prefix delegator event logs searched
by `findAnchoringEvent`, the `Receiptor` queues, and the outbound `Poster`
sends and `WitnessInquisitor` queries. -/
structure St where
  habs : List (String × Hab)
  kevers : List (String × Kever)
  dune : List ((String × String) × Serder)
  dpwe : List ((String × String) × Serder)
  cdel : List ((String × Nat) × String)
  aes : List ((String × String) × (Nat × String))
  wigs : List ((String × String) × List String)
  delLogs : List (String × List DEvent)
  witDoerMsgs : List Cue
  witDoerCues : List Cue
  postmanSends : List Send
  witqQueries : List WitQuery
deriving DecidableEq

/-- The anchor dict `dict(i=serder.pre, s=serder.sn, d=serder.said)` built
for a delegated event. -/
def anchorOf (serder : Serder) : Seal :=
  { i := serder.pre, s := serder.sn, d := serder.said }

/-- `db.findAnchoringEvent(pre, anchor)` over one prefix's log: the first
event containing the seal verbatim. -/
def findAnchoringEvent (log : List DEvent) (anchor : Seal) : Option DEvent :=
  log.find? (fun e => decide (anchor ∈ e.seals))

/-- The event log the database holds for a prefix (empty when none). -/
def getLog (st : St) (pre : String) : List DEvent :=
  (alookup st.delLogs pre).getD []

/-- `DelegateRequestHandler.resource`. -/
def delegateRequestResource : String := "/delegate/request"

/-- `delegateRequestExn(hab, delpre, ked, aids=None)`: builds the
`/delegate/request` exn payload; the `aids` key is set exactly when the
argument is not `None`.  (Endorsement and size bookkeeping are signing /
encoding concerns outside the module boundary.) -/
def delegateRequestExn (delpre : String) (ked : Serder) (aids : Option (List String)) : Exn :=
  { route := delegateRequestResource,
    payload := { delpre := delpre, ked := ked, aids := aids } }

/-- `Boatswain.delegation(pre, sn=None, proxy=None)`. -/
def delegation (st : St) (pre : String) (snArg : Option Nat) (proxy : Option String) :
    Except String St :=
  match alookup st.habs pre with
  | none => .error "is not a valid local AID for delegation"
  | some hab =>
    let delpre := hab.kever.delegator
    match alookup st.kevers delpre with
    | none => .error "delegator not found, unable to process delegation"
    | some dkever =>
      let sn := snArg.getD hab.kever.sn
      match hab.ownEvents[sn]? with
      | none => .error "makeOwnEvent: no own event at sn"
      | some srdr =>
        let pick : Except String (String × List String) :=
          if hab.isGroup then .ok (hab.mhab, hab.smids)
          else if hab.kever.sn > 0 then .ok (hab.pre, [])
          else match proxy with
            | some p => .ok (p, [])
            | none => .error "no proxy to send messages for delegation"
        match pick with
        | .error e => .error e
        | .ok (phab, smids) =>
          let exn := delegateRequestExn delpre srdr (some smids)
          let send1 : Send :=
            { src := phab, dest := hab.kever.delegator, topic := "delegate",
              body := .exnMsg exn }
          let send2 : Send :=
            { src := phab, dest := delpre, topic := "delegate", body := .evtMsg srdr }
          let q : WitQuery := { src := phab, pre := dkever.prefixer, anchor := anchorOf srdr }
          .ok { st with
                postmanSends := st.postmanSends ++ [send1, send2],
                witqQueries := st.witqQueries ++ [q],
                dune := apin st.dune (srdr.pre, srdr.said) srdr }

/-- `Boatswain.complete(prefixer, seqner, saider=None)`. -/
def complete (st : St) (pre : String) (sn : Nat) (saider : Option String) :
    Except String Bool :=
  match alookup st.cdel (pre, sn) with
  | none => .ok false
  | some csaid =>
    match saider with
    | some s => if csaid ≠ s then .error "invalid delegation protocol escrowed event"
                else .ok true
    | none => .ok true

/-- One item of the unanchored escrow processed by
`Boatswain.processUnanchoredEscrow`'s loop body.  A missing kever is a
Python `KeyError`, which aborts the whole pass. -/
def stepUnanchored (st : St) (item : (String × String) × Serder) : Except String St :=
  match item with
  | ((pre, said), serder) =>
    match alookup st.kevers pre with
    | none => .error "KeyError: kever"
    | some kever =>
      match alookup st.kevers kever.delegator with
      | none => .error "KeyError: delegator kever"
      | some dkever =>
        match findAnchoringEvent (getLog st dkever.prefixer) (anchorOf serder) with
        | some dserder =>
          let couple := (dserder.sn, dserder.said)
          let dgkey := (kever.prefixer, kever.serderSaid)
          .ok { st with
                aes := apin st.aes dgkey couple,
                witDoerMsgs := st.witDoerMsgs ++ [{ pre := pre, sn := serder.sn }],
                dpwe := apin st.dpwe (pre, said) serder,
                dune := arem st.dune (pre, said) }
        | none => .ok st

/-- Run an escrow loop body over a snapshot of a store's items, threading
the state; a raised exception aborts the pass. -/
def runSteps (f : St → (String × String) × Serder → Except String St) :
    List ((String × String) × Serder) → St → Except String St
  | [], st => .ok st
  | item :: rest, st =>
    match f st item with
    | .error e => .error e
    | .ok st' => runSteps f rest st'

/-- `Boatswain.processUnanchoredEscrow`. -/
def processUnanchoredEscrow (st : St) : Except String St :=
  runSteps stepUnanchored st.dune st

/-- One item of the partial-witness escrow processed by
`Boatswain.processPartialWitnessEscrow`'s loop body. -/
def stepPartialWitness (st : St) (item : (String × String) × Serder) : Except String St :=
  match item with
  | ((pre, said), serder) =>
    match alookup st.kevers pre with
    | none => .error "KeyError: kever"
    | some kever =>
      let dgkey := (pre, serder.said)
      let wigs := (alookup st.wigs dgkey).getD []
      if wigs.length = kever.wits.length then
        let witnessed :=
          st.witDoerCues.any (fun c => decide (c.pre = serder.pre) && decide (c.sn = serder.sn))
        if kever.wits.length > 0 && !witnessed then .ok st
        else .ok { st with
                   dpwe := arem st.dpwe (pre, said),
                   cdel := aput st.cdel (pre, serder.sn) serder.said }
      else .ok st

/-- `Boatswain.processPartialWitnessEscrow`. -/
def processPartialWitnessEscrow (st : St) : Except String St :=
  runSteps stepPartialWitness st.dpwe st

/-- `Boatswain.processEscrows`: the unanchored scan, then the
partial-witness scan. -/
def processEscrows (st : St) : Except String St :=
  match processUnanchoredEscrow st with
  | .error e => .error e
  | .ok st' => processPartialWitnessEscrow st'

/-- `n` consecutive escrow-processing ticks of `Boatswain.escrowDo`. -/
def tickN : Nat → St → Except String St
  | 0, st => .ok st
  | n + 1, st =>
    match processEscrows st with
    | .error e => .error e
    | .ok st' => tickN n st'

/-- Body of `DelegateRequestHandler.do` for one dequeued message: the
notification it hands to the `Notifier`, or `none` when the message is
dropped (logged and skipped). -/
def handleMsg (habs : List String) (msg : ReqMsg) : Option Note :=
  match msg.pre with
  | none => none
  | some prefixer =>
    match msg.payload with
    | none => none
    | some pay =>
      match pay.ked, pay.delpre with
      | some ked, some delpre =>
        if delpre ∈ habs then
          some { src := prefixer, r := delegateRequestResource, delpre := delpre,
                 ked := ked, aids := pay.aids }
        else none
      | some _, none => none
      | none, _ => none

/-- The notifications produced by `DelegateRequestHandler.do` draining a
queue of messages: dropped messages produce nothing and processing
continues with the rest of the queue. -/
def processRequestMsgs (habs : List String) (msgs : List ReqMsg) : List Note :=
  msgs.filterMap (handleMsg habs)

/-! ### Store algebra -/

theorem alookup_append {α β : Type} [DecidableEq α] (l₁ l₂ : List (α × β)) (a : α) :
    alookup (l₁ ++ l₂) a =
      match alookup l₁ a with
      | some v => some v
      | none => alookup l₂ a := by
  induction l₁ with
  | nil => simp [alookup]
  | cons kv rest ih =>
    obtain ⟨k, v⟩ := kv
    by_cases h : k = a <;> simp [alookup, h, ih]

theorem arem_cons {α β : Type} [DecidableEq α] (k' : α) (v : β) (rest : List (α × β))
    (a : α) :
    arem ((k', v) :: rest) a =
      if k' = a then arem rest a else (k', v) :: arem rest a := by
  by_cases h : k' = a <;> simp [arem, List.filter_cons, h]

theorem alookup_arem_self {α β : Type} [DecidableEq α] (m : List (α × β)) (a : α) :
    alookup (arem m a) a = none := by
  induction m with
  | nil => simp [arem, alookup]
  | cons kv rest ih =>
    obtain ⟨k, v⟩ := kv
    rw [arem_cons]
    by_cases h : k = a <;> simp [alookup, h, ih]

theorem alookup_arem_ne {α β : Type} [DecidableEq α] (m : List (α × β)) (a k : α)
    (h : k ≠ a) : alookup (arem m a) k = alookup m k := by
  induction m with
  | nil => simp [arem, alookup]
  | cons kv rest ih =>
    obtain ⟨k', v⟩ := kv
    rw [arem_cons]
    by_cases h' : k' = a
    · subst h'
      simp [alookup, Ne.symm h, ih]
    · by_cases h'' : k' = k <;> simp [alookup, h', h'', h, ih]

theorem alookup_arem_none {α β : Type} [DecidableEq α] (m : List (α × β)) (a k : α)
    (h : alookup m k = none) : alookup (arem m a) k = none := by
  by_cases hk : k = a
  · subst hk; exact alookup_arem_self m k
  · rw [alookup_arem_ne m a k hk]; exact h

theorem alookup_apin_self {α β : Type} [DecidableEq α] (m : List (α × β)) (a : α) (b : β) :
    alookup (apin m a b) a = some b := by
  rw [apin, alookup_append, alookup_arem_self]
  simp [alookup]

theorem alookup_apin_ne {α β : Type} [DecidableEq α] (m : List (α × β)) (a k : α) (b : β)
    (h : k ≠ a) : alookup (apin m a b) k = alookup m k := by
  rw [apin, alookup_append, alookup_arem_ne m a k h]
  cases hm : alookup m k with
  | some v => rfl
  | none => simp [alookup, Ne.symm h]

theorem alookup_aput_ne {α β : Type} [DecidableEq α] (m : List (α × β)) (a k : α) (b : β)
    (h : k ≠ a) : alookup (aput m a b) k = alookup m k := by
  rw [aput]
  cases hm : alookup m a with
  | some v => rfl
  | none =>
    rw [alookup_append]
    cases hk : alookup m k with
    | some v => rfl
    | none => simp [alookup, Ne.symm h]

theorem alookup_aput_self_of_none {α β : Type} [DecidableEq α] (m : List (α × β)) (a : α)
    (b : β) (h : alookup m a = none) : alookup (aput m a b) a = some b := by
  rw [aput, h, alookup_append, h]
  simp [alookup]

theorem alookup_aput_of_some {α β : Type} [DecidableEq α] (m : List (α × β)) (a k : α)
    (b v : β) (h : alookup m k = some v) : alookup (aput m a b) k = some v := by
  by_cases hk : k = a
  · subst hk
    rw [aput, h]
    exact h
  · rw [alookup_aput_ne m a k b hk]; exact h

theorem alookup_mem {α β : Type} [DecidableEq α] (m : List (α × β)) (k : α) (v : β)
    (h : alookup m k = some v) : (k, v) ∈ m := by
  induction m with
  | nil => simp [alookup] at h
  | cons kv rest ih =>
    obtain ⟨k', v'⟩ := kv
    by_cases hk : k' = k
    · subst hk
      simp [alookup] at h
      simp [h]
    · simp [alookup, hk] at h
      exact List.mem_cons_of_mem _ (ih h)

theorem mem_alookup_of_nodup {α β : Type} [DecidableEq α] (m : List (α × β)) (k : α) (v : β)
    (hnd : (m.map Prod.fst).Nodup) (h : (k, v) ∈ m) : alookup m k = some v := by
  induction m with
  | nil => simp at h
  | cons kv rest ih =>
    obtain ⟨k', v'⟩ := kv
    simp only [List.map_cons, List.nodup_cons] at hnd
    rcases List.mem_cons.mp h with heq | hmem
    · cases heq
      simp [alookup]
    · have hk : k' ≠ k := by
        intro hc
        subst hc
        exact hnd.1 (List.mem_map.mpr ⟨(k', v), hmem, rfl⟩)
      simp [alookup, hk]
      exact ih hnd.2 hmem

theorem alookup_value_of_nodup {α β : Type} [DecidableEq α] (m : List (α × β)) (k : α)
    (v x : β) (hnd : (m.map Prod.fst).Nodup) (hl : alookup m k = some v)
    (hm : (k, x) ∈ m) : x = v := by
  have := mem_alookup_of_nodup m k x hnd hm
  rw [hl] at this
  exact (Option.some.injEq _ _ ▸ this).symm

theorem arem_keys_nodup {α β : Type} [DecidableEq α] (m : List (α × β)) (a : α)
    (hnd : (m.map Prod.fst).Nodup) : ((arem m a).map Prod.fst).Nodup :=
  hnd.sublist ((List.filter_sublist m).map Prod.fst)

theorem arem_keys_sublist {α β : Type} [DecidableEq α] (m : List (α × β)) (a : α) :
    List.Sublist (arem m a) m :=
  List.filter_sublist m

/-! ### Inversion and frame lemmas for the escrow scans -/

/-- The promotion condition of the partial-witness scan for one record:
all configured witness signatures are present, and for a non-empty witness
set a matching completion cue has been reported by the `Receiptor`. -/
def promoCond (st : St) (pre : String) (serder : Serder) (kever : Kever) : Prop :=
  ((alookup st.wigs (pre, serder.said)).getD []).length = kever.wits.length ∧
    (0 < kever.wits.length →
      ∃ c ∈ st.witDoerCues, c.pre = serder.pre ∧ c.sn = serder.sn)

instance (st : St) (pre : String) (serder : Serder) (kever : Kever) :
    Decidable (promoCond st pre serder kever) := by
  unfold promoCond
  infer_instance

theorem witnessed_iff (st : St) (serder : Serder) :
    (st.witDoerCues.any
        (fun c => decide (c.pre = serder.pre) && decide (c.sn = serder.sn))) = true ↔
      ∃ c ∈ st.witDoerCues, c.pre = serder.pre ∧ c.sn = serder.sn := by
  simp [List.any_eq_true]

theorem runSteps_cons (f : St → (String × String) × Serder → Except String St)
    (it : (String × String) × Serder) (rest : List ((String × String) × Serder))
    (st st' : St) (h : runSteps f (it :: rest) st = .ok st') :
    ∃ st1, f st it = .ok st1 ∧ runSteps f rest st1 = .ok st' := by
  unfold runSteps at h
  cases hf : f st it with
  | error e => rw [hf] at h; exact absurd h (by simp)
  | ok st1 => rw [hf] at h; exact ⟨st1, rfl, h⟩

theorem stepUnanchored_ok_cases (st st' : St) (pre said : String) (serder : Serder)
    (h : stepUnanchored st ((pre, said), serder) = .ok st') :
    ∃ kever dkever,
      alookup st.kevers pre = some kever ∧
      alookup st.kevers kever.delegator = some dkever ∧
      ((findAnchoringEvent (getLog st dkever.prefixer) (anchorOf serder) = none ∧ st' = st) ∨
       (∃ dserder,
         findAnchoringEvent (getLog st dkever.prefixer) (anchorOf serder) = some dserder ∧
         st' = { st with
                 aes := apin st.aes (kever.prefixer, kever.serderSaid)
                          (dserder.sn, dserder.said),
                 witDoerMsgs := st.witDoerMsgs ++ [{ pre := pre, sn := serder.sn }],
                 dpwe := apin st.dpwe (pre, said) serder,
                 dune := arem st.dune (pre, said) })) := by
  unfold stepUnanchored at h
  dsimp only [] at h
  cases hk : alookup st.kevers pre with
  | none => rw [hk] at h; exact absurd h (by simp)
  | some kever =>
    rw [hk] at h
    dsimp only [] at h
    cases hdk : alookup st.kevers kever.delegator with
    | none => rw [hdk] at h; exact absurd h (by simp)
    | some dkever =>
      rw [hdk] at h
      dsimp only [] at h
      cases hf : findAnchoringEvent (getLog st dkever.prefixer) (anchorOf serder) with
      | none =>
        rw [hf] at h
        simp only [Except.ok.injEq] at h
        exact ⟨kever, dkever, rfl, hdk, Or.inl ⟨hf, h.symm⟩⟩
      | some dserder =>
        rw [hf] at h
        simp only [Except.ok.injEq] at h
        exact ⟨kever, dkever, rfl, hdk, Or.inr ⟨dserder, hf, h.symm⟩⟩

theorem stepPartialWitness_ok_cases (st st' : St) (pre said : String) (serder : Serder)
    (kever : Kever) (hk : alookup st.kevers pre = some kever)
    (h : stepPartialWitness st ((pre, said), serder) = .ok st') :
    (¬ promoCond st pre serder kever ∧ st' = st) ∨
      (promoCond st pre serder kever ∧
        st' = { st with
                dpwe := arem st.dpwe (pre, said),
                cdel := aput st.cdel (pre, serder.sn) serder.said }) := by
  unfold stepPartialWitness at h
  dsimp only [] at h
  rw [hk] at h
  dsimp only [] at h
  by_cases hlen : ((alookup st.wigs (pre, serder.said)).getD []).length = kever.wits.length
  · rw [if_pos hlen] at h
    by_cases hwit : (st.witDoerCues.any
        (fun c => decide (c.pre = serder.pre) && decide (c.sn = serder.sn))) = true
    · rw [hwit] at h
      simp only [Bool.not_true, Bool.and_false, Bool.false_eq_true, if_false,
        Except.ok.injEq] at h
      exact Or.inr ⟨⟨hlen, fun _ => (witnessed_iff st serder).mp hwit⟩, h.symm⟩
    · rw [Bool.not_eq_true] at hwit
      rw [hwit] at h
      by_cases hw : 0 < kever.wits.length
      · have hb : decide (kever.wits.length > 0) = true := by simpa using hw
        rw [hb] at h
        simp only [Bool.not_false, Bool.and_true, if_true, Except.ok.injEq] at h
        refine Or.inl ⟨?_, h.symm⟩
        intro hp
        have := hp.2 hw
        rw [← witnessed_iff st serder, hwit] at this
        exact absurd this (by simp)
      · have hb : decide (kever.wits.length > 0) = false := by simpa using hw
        rw [hb] at h
        simp only [Bool.false_and, Bool.false_eq_true, if_false, Except.ok.injEq] at h
        refine Or.inr ⟨⟨hlen, fun hc => absurd hc hw⟩, h.symm⟩
  · rw [if_neg hlen] at h
    simp only [Except.ok.injEq] at h
    exact Or.inl ⟨fun hp => hlen hp.1, h.symm⟩

theorem stepUnanchored_frame (st st' : St) (it : (String × String) × Serder)
    (h : stepUnanchored st it = .ok st') :
    st'.habs = st.habs ∧ st'.kevers = st.kevers ∧ st'.cdel = st.cdel ∧
      st'.wigs = st.wigs ∧ st'.delLogs = st.delLogs ∧
      st'.witDoerCues = st.witDoerCues ∧ st'.postmanSends = st.postmanSends ∧
      st'.witqQueries = st.witqQueries := by
  obtain ⟨⟨pre, said⟩, serder⟩ := it
  obtain ⟨kever, dkever, _, _, hcase⟩ := stepUnanchored_ok_cases st st' pre said serder h
  rcases hcase with ⟨_, rfl⟩ | ⟨dserder, _, rfl⟩ <;> simp

theorem stepPartialWitness_frame (st st' : St) (it : (String × String) × Serder)
    (h : stepPartialWitness st it = .ok st') :
    st'.habs = st.habs ∧ st'.kevers = st.kevers ∧ st'.dune = st.dune ∧
      st'.aes = st.aes ∧ st'.wigs = st.wigs ∧ st'.delLogs = st.delLogs ∧
      st'.witDoerMsgs = st.witDoerMsgs ∧ st'.witDoerCues = st.witDoerCues ∧
      st'.postmanSends = st.postmanSends ∧ st'.witqQueries = st.witqQueries := by
  obtain ⟨⟨pre, said⟩, serder⟩ := it
  cases hk : alookup st.kevers pre with
  | none =>
    unfold stepPartialWitness at h
    dsimp only [] at h
    rw [hk] at h
    exact absurd h (by simp)
  | some kever =>
    rcases stepPartialWitness_ok_cases st st' pre said serder kever hk h with
      ⟨_, rfl⟩ | ⟨_, rfl⟩ <;> simp

/-! ### Invariants of the unanchored scan -/

/-- The delegator's log holds no event anchoring the escrowed event's seal
(under whatever kevers the scan would resolve). -/
def noSealAt (st : St) (k : String × String) (serder : Serder) : Prop :=
  ∀ kever, alookup st.kevers k.1 = some kever →
    ∀ dkever, alookup st.kevers kever.delegator = some dkever →
      findAnchoringEvent (getLog st dkever.prefixer) (anchorOf serder) = none

/-- The delegator's log holds an event anchoring the escrowed event's seal. -/
def sealFoundAt (st : St) (k : String × String) (serder : Serder) : Prop :=
  ∀ kever, alookup st.kevers k.1 = some kever →
    ∀ dkever, alookup st.kevers kever.delegator = some dkever →
      (findAnchoringEvent (getLog st dkever.prefixer) (anchorOf serder)).isSome

theorem getLog_congr (st st1 : St) (p : String) (hd : st1.delLogs = st.delLogs) :
    getLog st1 p = getLog st p := by
  simp [getLog, hd]

theorem noSealAt_of_frame (st st1 : St) (k : String × String) (serder : Serder)
    (hk : st1.kevers = st.kevers) (hd : st1.delLogs = st.delLogs)
    (h : noSealAt st k serder) : noSealAt st1 k serder := by
  intro kever hkev dkever hdkev
  rw [hk] at hkev hdkev
  rw [getLog_congr st st1 dkever.prefixer hd]
  exact h kever hkev dkever hdkev

theorem sealFoundAt_of_frame (st st1 : St) (k : String × String) (serder : Serder)
    (hk : st1.kevers = st.kevers) (hd : st1.delLogs = st.delLogs)
    (h : sealFoundAt st k serder) : sealFoundAt st1 k serder := by
  intro kever hkev dkever hdkev
  rw [hk] at hkev hdkev
  rw [getLog_congr st st1 dkever.prefixer hd]
  exact h kever hkev dkever hdkev

theorem stepUnanchored_dune_shape (st st' : St) (it : (String × String) × Serder)
    (h : stepUnanchored st it = .ok st') :
    st'.dune = st.dune ∨ st'.dune = arem st.dune it.1 := by
  obtain ⟨⟨pre, said⟩, serder⟩ := it
  obtain ⟨kever, dkever, _, _, hcase⟩ := stepUnanchored_ok_cases st st' pre said serder h
  rcases hcase with ⟨_, rfl⟩ | ⟨dserder, _, rfl⟩
  · exact Or.inl rfl
  · exact Or.inr rfl

theorem stepUnanchored_other (st st' : St) (it : (String × String) × Serder)
    (k : String × String) (h : stepUnanchored st it = .ok st') (hne : it.1 ≠ k) :
    alookup st'.dune k = alookup st.dune k ∧ alookup st'.dpwe k = alookup st.dpwe k := by
  obtain ⟨⟨pre, said⟩, serder⟩ := it
  obtain ⟨kever, dkever, _, _, hcase⟩ := stepUnanchored_ok_cases st st' pre said serder h
  rcases hcase with ⟨_, rfl⟩ | ⟨dserder, _, rfl⟩
  · exact ⟨rfl, rfl⟩
  · refine ⟨alookup_arem_ne _ _ _ (Ne.symm hne), alookup_apin_ne _ _ _ _ (Ne.symm hne)⟩

theorem runUnanchored_frame (L : List ((String × String) × Serder)) (st st' : St)
    (h : runSteps stepUnanchored L st = .ok st') :
    st'.habs = st.habs ∧ st'.kevers = st.kevers ∧ st'.cdel = st.cdel ∧
      st'.wigs = st.wigs ∧ st'.delLogs = st.delLogs ∧
      st'.witDoerCues = st.witDoerCues := by
  induction L generalizing st with
  | nil =>
    unfold runSteps at h
    simp only [Except.ok.injEq] at h
    subst h
    exact ⟨rfl, rfl, rfl, rfl, rfl, rfl⟩
  | cons it rest ih =>
    obtain ⟨st1, hstep, hrest⟩ := runSteps_cons _ it rest st st' h
    obtain ⟨h1, h2, h3, h4, h5, h6, _, _⟩ := stepUnanchored_frame st st1 it hstep
    obtain ⟨g1, g2, g3, g4, g5, g6⟩ := ih st1 hrest
    exact ⟨g1.trans h1, g2.trans h2, g3.trans h3, g4.trans h4, g5.trans h5, g6.trans h6⟩

theorem runUnanchored_nodup (L : List ((String × String) × Serder)) (st st' : St)
    (hnd : (st.dune.map Prod.fst).Nodup)
    (h : runSteps stepUnanchored L st = .ok st') :
    (st'.dune.map Prod.fst).Nodup := by
  induction L generalizing st with
  | nil =>
    unfold runSteps at h
    simp only [Except.ok.injEq] at h
    subst h
    exact hnd
  | cons it rest ih =>
    obtain ⟨st1, hstep, hrest⟩ := runSteps_cons _ it rest st st' h
    rcases stepUnanchored_dune_shape st st1 it hstep with hs | hs
    · exact ih st1 (hs ▸ hnd) hrest
    · exact ih st1 (hs ▸ arem_keys_nodup st.dune it.1 hnd) hrest

theorem runUnanchored_stable (L : List ((String × String) × Serder)) (st st' : St)
    (k : String × String)
    (hkeys : ∀ it ∈ L, it.1 ≠ k)
    (hd : alookup st.dune k = none)
    (h : runSteps stepUnanchored L st = .ok st') :
    alookup st'.dune k = none ∧ alookup st'.dpwe k = alookup st.dpwe k := by
  induction L generalizing st with
  | nil =>
    unfold runSteps at h
    simp only [Except.ok.injEq] at h
    subst h
    exact ⟨hd, rfl⟩
  | cons it rest ih =>
    obtain ⟨st1, hstep, hrest⟩ := runSteps_cons _ it rest st st' h
    have hne : it.1 ≠ k := hkeys it (List.mem_cons_self it rest)
    obtain ⟨e1, e2⟩ := stepUnanchored_other st st1 it k hstep hne
    have hd1 : alookup st1.dune k = none := e1.trans hd
    obtain ⟨g1, g2⟩ := ih st1 (fun it' hit' => hkeys it' (List.mem_cons_of_mem it hit')) hd1 hrest
    exact ⟨g1, g2.trans e2⟩

theorem runUnanchored_noSeal (L : List ((String × String) × Serder)) (st st' : St)
    (k : String × String) (serder : Serder)
    (hits : ∀ it ∈ L, it.1 = k → it.2 = serder)
    (hns : noSealAt st k serder)
    (h : runSteps stepUnanchored L st = .ok st') :
    alookup st'.dune k = alookup st.dune k ∧ alookup st'.dpwe k = alookup st.dpwe k := by
  induction L generalizing st with
  | nil =>
    unfold runSteps at h
    simp only [Except.ok.injEq] at h
    subst h
    exact ⟨rfl, rfl⟩
  | cons it rest ih =>
    obtain ⟨st1, hstep, hrest⟩ := runSteps_cons _ it rest st st' h
    have hits' : ∀ it' ∈ rest, it'.1 = k → it'.2 = serder :=
      fun it' hit' => hits it' (List.mem_cons_of_mem it hit')
    by_cases hk1 : it.1 = k
    · obtain ⟨⟨pre, said⟩, srd⟩ := it
      have hsrd : srd = serder := hits _ (List.mem_cons_self _ rest) hk1
      subst hsrd
      cases hk1
      obtain ⟨kever, dkever, hkev, hdkev, hcase⟩ :=
        stepUnanchored_ok_cases st st1 pre said srd hstep
      rcases hcase with ⟨_, rfl⟩ | ⟨dserder, hf, _⟩
      · exact ih st1 hits' hns hrest
      · have := hns kever hkev dkever hdkev
        rw [hf] at this
        exact absurd this (by simp)
    · obtain ⟨e1, e2⟩ := stepUnanchored_other st st1 it k hstep hk1
      obtain ⟨_, hkv, _, _, hdl, _⟩ := stepUnanchored_frame st st1 it hstep
      have hns1 : noSealAt st1 k serder := noSealAt_of_frame st st1 k serder hkv hdl hns
      obtain ⟨g1, g2⟩ := ih st1 hits' hns1 hrest
      exact ⟨g1.trans e1, g2.trans e2⟩

theorem runUnanchored_found (L : List ((String × String) × Serder)) (st st' : St)
    (k : String × String) (serder : Serder)
    (hnd : (L.map Prod.fst).Nodup)
    (hmem : (k, serder) ∈ L)
    (hsf : sealFoundAt st k serder)
    (h : runSteps stepUnanchored L st = .ok st') :
    alookup st'.dune k = none ∧ alookup st'.dpwe k = some serder := by
  obtain ⟨kp, ks⟩ := k
  induction L generalizing st with
  | nil => simp at hmem
  | cons it rest ih =>
    obtain ⟨st1, hstep, hrest⟩ := runSteps_cons _ it rest st st' h
    by_cases hk1 : it.1 = (kp, ks)
    · have hit : it = ((kp, ks), serder) := by
        rcases List.mem_cons.mp hmem with heq | hmem'
        · exact heq.symm
        · exfalso
          simp only [List.map_cons, List.nodup_cons] at hnd
          exact hnd.1 (hk1 ▸ List.mem_map.mpr ⟨((kp, ks), serder), hmem', rfl⟩)
      subst hit
      obtain ⟨kever, dkever, hkev, hdkev, hcase⟩ :=
        stepUnanchored_ok_cases st st1 kp ks serder hstep
      rcases hcase with ⟨hf, _⟩ | ⟨dserder, hf, hst1⟩
      · have := hsf kever hkev dkever hdkev
        rw [hf] at this
        exact absurd this (by simp)
      · have hkeys : ∀ it' ∈ rest, it'.1 ≠ (kp, ks) := by
          intro it' hit' hck
          simp only [List.map_cons, List.nodup_cons] at hnd
          exact hnd.1 (hck ▸ List.mem_map.mpr ⟨it', hit', rfl⟩)
        have hd1 : alookup st1.dune (kp, ks) = none := by
          rw [hst1]
          exact alookup_arem_self st.dune (kp, ks)
        have hp1 : alookup st1.dpwe (kp, ks) = some serder := by
          rw [hst1]
          exact alookup_apin_self st.dpwe (kp, ks) serder
        obtain ⟨g1, g2⟩ := runUnanchored_stable rest st1 st' (kp, ks) hkeys hd1 hrest
        exact ⟨g1, g2.trans hp1⟩
    · have hmem' : ((kp, ks), serder) ∈ rest := by
        rcases List.mem_cons.mp hmem with heq | hmem'
        · exact absurd (congrArg Prod.fst heq.symm) hk1
        · exact hmem'
      obtain ⟨_, hkv, _, _, hdl, _⟩ := stepUnanchored_frame st st1 it hstep
      have hsf1 : sealFoundAt st1 (kp, ks) serder :=
        sealFoundAt_of_frame st st1 (kp, ks) serder hkv hdl hsf
      simp only [List.map_cons, List.nodup_cons] at hnd
      exact ih st1 hnd.2 hrest hmem' hsf1

/-! ### Invariants of the partial-witness scan -/

theorem stepPartialWitness_shape (st st' : St) (it : (String × String) × Serder)
    (h : stepPartialWitness st it = .ok st') :
    (st'.dpwe = st.dpwe ∧ st'.cdel = st.cdel) ∨
      (st'.dpwe = arem st.dpwe it.1 ∧
        st'.cdel = aput st.cdel (it.1.1, it.2.sn) it.2.said) := by
  obtain ⟨⟨pre, said⟩, serder⟩ := it
  cases hk : alookup st.kevers pre with
  | none =>
    unfold stepPartialWitness at h
    dsimp only [] at h
    rw [hk] at h
    exact absurd h (by simp)
  | some kever =>
    rcases stepPartialWitness_ok_cases st st' pre said serder kever hk h with
      ⟨_, rfl⟩ | ⟨_, rfl⟩
    · exact Or.inl ⟨rfl, rfl⟩
    · exact Or.inr ⟨rfl, rfl⟩

theorem runPW_frame (L : List ((String × String) × Serder)) (st st' : St)
    (h : runSteps stepPartialWitness L st = .ok st') :
    st'.habs = st.habs ∧ st'.kevers = st.kevers ∧ st'.dune = st.dune ∧
      st'.aes = st.aes ∧ st'.wigs = st.wigs ∧ st'.delLogs = st.delLogs ∧
      st'.witDoerMsgs = st.witDoerMsgs ∧ st'.witDoerCues = st.witDoerCues := by
  induction L generalizing st with
  | nil =>
    unfold runSteps at h
    simp only [Except.ok.injEq] at h
    subst h
    exact ⟨rfl, rfl, rfl, rfl, rfl, rfl, rfl, rfl⟩
  | cons it rest ih =>
    obtain ⟨st1, hstep, hrest⟩ := runSteps_cons _ it rest st st' h
    obtain ⟨h1, h2, h3, h4, h5, h6, h7, h8, _, _⟩ := stepPartialWitness_frame st st1 it hstep
    obtain ⟨g1, g2, g3, g4, g5, g6, g7, g8⟩ := ih st1 hrest
    exact ⟨g1.trans h1, g2.trans h2, g3.trans h3, g4.trans h4, g5.trans h5, g6.trans h6,
      g7.trans h7, g8.trans h8⟩

theorem runPW_dpwe_none (L : List ((String × String) × Serder)) (st st' : St)
    (k : String × String)
    (hd : alookup st.dpwe k = none)
    (h : runSteps stepPartialWitness L st = .ok st') :
    alookup st'.dpwe k = none := by
  induction L generalizing st with
  | nil =>
    unfold runSteps at h
    simp only [Except.ok.injEq] at h
    subst h
    exact hd
  | cons it rest ih =>
    obtain ⟨st1, hstep, hrest⟩ := runSteps_cons _ it rest st st' h
    rcases stepPartialWitness_shape st st1 it hstep with ⟨hs, _⟩ | ⟨hs, _⟩
    · exact ih st1 (hs ▸ hd) hrest
    · exact ih st1 (hs ▸ alookup_arem_none st.dpwe it.1 k hd) hrest

theorem runPW_stable (L : List ((String × String) × Serder)) (st st' : St)
    (k : String × String) (ck : String × Nat) (v : String)
    (hd : alookup st.dpwe k = none)
    (hc : alookup st.cdel ck = some v)
    (h : runSteps stepPartialWitness L st = .ok st') :
    alookup st'.dpwe k = none ∧ alookup st'.cdel ck = some v := by
  induction L generalizing st with
  | nil =>
    unfold runSteps at h
    simp only [Except.ok.injEq] at h
    subst h
    exact ⟨hd, hc⟩
  | cons it rest ih =>
    obtain ⟨st1, hstep, hrest⟩ := runSteps_cons _ it rest st st' h
    rcases stepPartialWitness_shape st st1 it hstep with ⟨hs, hs'⟩ | ⟨hs, hs'⟩
    · exact ih st1 (hs ▸ hd) (hs' ▸ hc) hrest
    · refine ih st1 (hs ▸ alookup_arem_none st.dpwe it.1 k hd) ?_ hrest
      rw [hs']
      exact alookup_aput_of_some st.cdel (it.1.1, it.2.sn) ck it.2.said v hc

theorem promoCond_of_frame (st st1 : St) (pre : String) (serder : Serder) (kever : Kever)
    (hw : st1.wigs = st.wigs) (hc : st1.witDoerCues = st.witDoerCues) :
    promoCond st1 pre serder kever ↔ promoCond st pre serder kever := by
  unfold promoCond
  rw [hw, hc]

theorem runPW_notPromo (L : List ((String × String) × Serder)) (st st' : St)
    (kp ks : String) (serder : Serder) (kever : Kever)
    (hits : ∀ it ∈ L, it.1 = (kp, ks) → it.2 = serder)
    (hdisj : ∀ it ∈ L, it.1 ≠ (kp, ks) → (it.1.1, it.2.sn) ≠ (kp, serder.sn))
    (hk : alookup st.kevers kp = some kever)
    (hnp : ¬ promoCond st kp serder kever)
    (h : runSteps stepPartialWitness L st = .ok st') :
    alookup st'.dpwe (kp, ks) = alookup st.dpwe (kp, ks) ∧
      alookup st'.cdel (kp, serder.sn) = alookup st.cdel (kp, serder.sn) := by
  induction L generalizing st with
  | nil =>
    unfold runSteps at h
    simp only [Except.ok.injEq] at h
    subst h
    exact ⟨rfl, rfl⟩
  | cons it rest ih =>
    obtain ⟨st1, hstep, hrest⟩ := runSteps_cons _ it rest st st' h
    have hits' : ∀ it' ∈ rest, it'.1 = (kp, ks) → it'.2 = serder :=
      fun it' hit' => hits it' (List.mem_cons_of_mem it hit')
    have hdisj' : ∀ it' ∈ rest, it'.1 ≠ (kp, ks) → (it'.1.1, it'.2.sn) ≠ (kp, serder.sn) :=
      fun it' hit' => hdisj it' (List.mem_cons_of_mem it hit')
    obtain ⟨_, hkv, _, _, hwg, _, _, hcu, _, _⟩ := stepPartialWitness_frame st st1 it hstep
    have hk1 : alookup st1.kevers kp = some kever := hkv ▸ hk
    have hnp1 : ¬ promoCond st1 kp serder kever := fun hp =>
      hnp ((promoCond_of_frame st st1 kp serder kever hwg hcu).mp hp)
    by_cases hck : it.1 = (kp, ks)
    · obtain ⟨⟨pre, said⟩, srd⟩ := it
      have hsrd : srd = serder := hits _ (List.mem_cons_self _ rest) hck
      subst hsrd
      obtain ⟨hpre, hsaid⟩ : pre = kp ∧ said = ks := by
        simpa [Prod.ext_iff] using hck
      subst hpre
      subst hsaid
      rcases stepPartialWitness_ok_cases st st1 pre said srd kever hk hstep with
        ⟨_, rfl⟩ | ⟨hp, _⟩
      · exact ih st1 hits' hdisj' hk hnp hrest
      · exact absurd hp hnp
    · rcases stepPartialWitness_shape st st1 it hstep with ⟨hs, hs'⟩ | ⟨hs, hs'⟩
      · obtain ⟨g1, g2⟩ := ih st1 hits' hdisj' hk1 hnp1 hrest
        rw [hs] at g1
        rw [hs'] at g2
        exact ⟨g1, g2⟩
      · obtain ⟨g1, g2⟩ := ih st1 hits' hdisj' hk1 hnp1 hrest
        rw [hs] at g1
        rw [hs'] at g2
        rw [alookup_arem_ne st.dpwe it.1 (kp, ks) (Ne.symm hck)] at g1
        have hcd : (it.1.1, it.2.sn) ≠ (kp, serder.sn) :=
          hdisj it (List.mem_cons_self it rest) hck
        rw [alookup_aput_ne st.cdel (it.1.1, it.2.sn) (kp, serder.sn) it.2.said
          (Ne.symm hcd)] at g2
        exact ⟨g1, g2⟩

theorem runPW_promo (L : List ((String × String) × Serder)) (st st' : St)
    (kp ks : String) (serder : Serder) (kever : Kever)
    (hits : ∀ it ∈ L, it.1 = (kp, ks) → it.2 = serder)
    (hdisj : ∀ it ∈ L, it.1 ≠ (kp, ks) → (it.1.1, it.2.sn) ≠ (kp, serder.sn))
    (hmem : ((kp, ks), serder) ∈ L)
    (hk : alookup st.kevers kp = some kever)
    (hcd : alookup st.cdel (kp, serder.sn) = none)
    (hp : promoCond st kp serder kever)
    (h : runSteps stepPartialWitness L st = .ok st') :
    alookup st'.dpwe (kp, ks) = none ∧
      alookup st'.cdel (kp, serder.sn) = some serder.said := by
  induction L generalizing st with
  | nil => simp at hmem
  | cons it rest ih =>
    obtain ⟨st1, hstep, hrest⟩ := runSteps_cons _ it rest st st' h
    have hits' : ∀ it' ∈ rest, it'.1 = (kp, ks) → it'.2 = serder :=
      fun it' hit' => hits it' (List.mem_cons_of_mem it hit')
    have hdisj' : ∀ it' ∈ rest, it'.1 ≠ (kp, ks) → (it'.1.1, it'.2.sn) ≠ (kp, serder.sn) :=
      fun it' hit' => hdisj it' (List.mem_cons_of_mem it hit')
    obtain ⟨_, hkv, _, _, hwg, _, _, hcu, _, _⟩ := stepPartialWitness_frame st st1 it hstep
    by_cases hck : it.1 = (kp, ks)
    · obtain ⟨⟨pre, said⟩, srd⟩ := it
      have hsrd : srd = serder := hits _ (List.mem_cons_self _ rest) hck
      subst hsrd
      obtain ⟨hpre, hsaid⟩ : pre = kp ∧ said = ks := by
        simpa [Prod.ext_iff] using hck
      subst hpre
      subst hsaid
      rcases stepPartialWitness_ok_cases st st1 pre said srd kever hk hstep with
        ⟨hnp, _⟩ | ⟨_, hst1⟩
      · exact absurd hp hnp
      · have hd1 : alookup st1.dpwe (pre, said) = none := by
          rw [hst1]
          exact alookup_arem_self st.dpwe (pre, said)
        have hc1 : alookup st1.cdel (pre, srd.sn) = some srd.said := by
          rw [hst1]
          exact alookup_aput_self_of_none st.cdel (pre, srd.sn) srd.said hcd
        exact runPW_stable rest st1 st' (pre, said) (pre, srd.sn) srd.said hd1 hc1 hrest
    · have hmem' : ((kp, ks), serder) ∈ rest := by
        rcases List.mem_cons.mp hmem with heq | hmem'
        · exact absurd (congrArg Prod.fst heq.symm) hck
        · exact hmem'
      have hk1 : alookup st1.kevers kp = some kever := hkv ▸ hk
      have hp1 : promoCond st1 kp serder kever :=
        (promoCond_of_frame st st1 kp serder kever hwg hcu).mpr hp
      have hcd1 : alookup st1.cdel (kp, serder.sn) = none := by
        rcases stepPartialWitness_shape st st1 it hstep with ⟨_, hs'⟩ | ⟨_, hs'⟩
        · rw [hs']
          exact hcd
        · rw [hs']
          have hne : (it.1.1, it.2.sn) ≠ (kp, serder.sn) :=
            hdisj it (List.mem_cons_self it rest) hck
          rw [alookup_aput_ne st.cdel (it.1.1, it.2.sn) (kp, serder.sn) it.2.said
            (Ne.symm hne)]
          exact hcd
      exact ih st1 hits' hdisj' hmem' hk1 hcd1 hp1 hrest

/-! ### Per-tick composition -/

theorem processEscrows_cases (st st' : St) (h : processEscrows st = .ok st') :
    ∃ st1, processUnanchoredEscrow st = .ok st1 ∧
      processPartialWitnessEscrow st1 = .ok st' := by
  unfold processEscrows at h
  cases hu : processUnanchoredEscrow st with
  | error e => rw [hu] at h; exact absurd h (by simp)
  | ok st1 => rw [hu] at h; exact ⟨st1, rfl, h⟩

theorem tickN_succ_cases (n : Nat) (st st' : St) (h : tickN (n + 1) st = .ok st') :
    ∃ st1, processEscrows st = .ok st1 ∧ tickN n st1 = .ok st' := by
  unfold tickN at h
  cases hp : processEscrows st with
  | error e => rw [hp] at h; exact absurd h (by simp)
  | ok st1 => rw [hp] at h; exact ⟨st1, rfl, h⟩

/-! ### Inversion of a successful `delegation` call -/

theorem delegation_ok_cases (st st' : St) (pre : String) (snArg : Option Nat)
    (proxy : Option String) (hab : Hab) (dkever : Kever) (srdr : Serder)
    (hhab : alookup st.habs pre = some hab)
    (hdk : alookup st.kevers hab.kever.delegator = some dkever)
    (hev : hab.ownEvents[snArg.getD hab.kever.sn]? = some srdr)
    (hok : delegation st pre snArg proxy = .ok st') :
    ∃ phab smids,
      ((hab.isGroup = true ∧ phab = hab.mhab ∧ smids = hab.smids) ∨
       (hab.isGroup = false ∧ 0 < hab.kever.sn ∧ phab = hab.pre ∧ smids = []) ∨
       (hab.isGroup = false ∧ hab.kever.sn = 0 ∧ proxy = some phab ∧ smids = [])) ∧
      st' = { st with
              postmanSends := st.postmanSends ++
                [{ src := phab, dest := hab.kever.delegator, topic := "delegate",
                   body := .exnMsg (delegateRequestExn hab.kever.delegator srdr
                     (some smids)) },
                 { src := phab, dest := hab.kever.delegator, topic := "delegate",
                   body := .evtMsg srdr }],
              witqQueries := st.witqQueries ++
                [{ src := phab, pre := dkever.prefixer, anchor := anchorOf srdr }],
              dune := apin st.dune (srdr.pre, srdr.said) srdr } := by
  unfold delegation at hok
  rw [hhab] at hok
  dsimp only [] at hok
  rw [hdk] at hok
  dsimp only [] at hok
  rw [hev] at hok
  dsimp only [] at hok
  cases hg : hab.isGroup with
  | true =>
    rw [hg] at hok
    simp only [if_true, Except.ok.injEq] at hok
    exact ⟨hab.mhab, hab.smids, Or.inl ⟨rfl, rfl, rfl⟩, hok.symm⟩
  | false =>
    rw [hg] at hok
    simp only [Bool.false_eq_true, if_false] at hok
    by_cases hsn : hab.kever.sn > 0
    · rw [if_pos hsn] at hok
      simp only [Except.ok.injEq] at hok
      exact ⟨hab.pre, [], Or.inr (Or.inl ⟨rfl, hsn, rfl, rfl⟩), hok.symm⟩
    · rw [if_neg hsn] at hok
      have hsn0 : hab.kever.sn = 0 := Nat.eq_zero_of_not_pos hsn
      cases hp : proxy with
      | none =>
        rw [hp] at hok
        exact absurd hok (by simp)
      | some p =>
        rw [hp] at hok
        simp only [Except.ok.injEq] at hok
        exact ⟨p, [], Or.inr (Or.inr ⟨rfl, hsn0, rfl, rfl⟩), hok.symm⟩

/-! ### Claim theorems -/

/-- C3: the completion query `Boatswain.complete` returns `false` exactly
when no completion record exists for `(pre, sn)`; when a record exists it
fails with the inconsistent-delegation error exactly when a supplied
expected digest differs from the stored one, and returns `true` in every
other case (in particular when no expected digest is supplied). -/
theorem complete_spec (st : St) (pre : String) (sn : Nat) (saider : Option String) :
    (complete st pre sn saider = .ok false ↔ alookup st.cdel (pre, sn) = none)
    ∧ (∀ csaid, alookup st.cdel (pre, sn) = some csaid →
        ((∃ s, saider = some s ∧ s ≠ csaid) →
          complete st pre sn saider = .error "invalid delegation protocol escrowed event")
        ∧ ((saider = none ∨ saider = some csaid) →
          complete st pre sn saider = .ok true)) := by
  refine ⟨⟨?_, ?_⟩, ?_⟩
  · intro h
    cases hc : alookup st.cdel (pre, sn) with
    | none => rfl
    | some csaid =>
      unfold complete at h
      rw [hc] at h
      cases saider with
      | none => simp at h
      | some s =>
        dsimp only [] at h
        by_cases hs : csaid ≠ s
        · rw [if_pos hs] at h
          exact absurd h (by simp)
        · rw [if_neg hs] at h
          simp at h
  · intro h
    unfold complete
    rw [h]
  · intro csaid hc
    constructor
    · rintro ⟨s, rfl, hne⟩
      unfold complete
      rw [hc]
      dsimp only []
      rw [if_pos (Ne.symm hne)]
    · rintro (rfl | rfl)
      · unfold complete
        rw [hc]
      · unfold complete
        rw [hc]
        dsimp only []
        rw [if_neg (by simp)]

/-- C6: `delegation` fails with the matching errors: unknown local AID when
`pre` is not locally held; delegator-not-found when the declared delegator
has no kever; no-proxy when the hab is not a group hab, its kever's
sequence number is 0 (only the inception event exists), and no proxy is
supplied; and for a non-group hab past inception (`kever.sn > 0`) the call
succeeds without any proxy. -/
theorem delegation_error_spec (st : St) (pre : String) (snArg : Option Nat)
    (proxy : Option String) :
    (alookup st.habs pre = none →
      delegation st pre snArg proxy = .error "is not a valid local AID for delegation")
    ∧ (∀ hab, alookup st.habs pre = some hab →
        alookup st.kevers hab.kever.delegator = none →
        delegation st pre snArg proxy =
          .error "delegator not found, unable to process delegation")
    ∧ (∀ hab dkever srdr, alookup st.habs pre = some hab →
        alookup st.kevers hab.kever.delegator = some dkever →
        hab.ownEvents[snArg.getD hab.kever.sn]? = some srdr →
        hab.isGroup = false → hab.kever.sn = 0 → proxy = none →
        delegation st pre snArg proxy = .error "no proxy to send messages for delegation")
    ∧ (∀ hab dkever srdr, alookup st.habs pre = some hab →
        alookup st.kevers hab.kever.delegator = some dkever →
        hab.ownEvents[snArg.getD hab.kever.sn]? = some srdr →
        hab.isGroup = false → 0 < hab.kever.sn →
        ∃ st', delegation st pre snArg proxy = .ok st') := by
  refine ⟨?_, ?_, ?_, ?_⟩
  · intro h
    unfold delegation
    rw [h]
  · intro hab hhab hdk
    unfold delegation
    rw [hhab]
    dsimp only []
    rw [hdk]
  · intro hab dkever srdr hhab hdk hev hg hsn hp
    unfold delegation
    rw [hhab]
    dsimp only []
    rw [hdk]
    dsimp only []
    rw [hev]
    dsimp only []
    rw [hg, hsn, hp]
    simp
  · intro hab dkever srdr hhab hdk hev hg hsn
    unfold delegation
    rw [hhab]
    dsimp only []
    rw [hdk]
    dsimp only []
    rw [hev]
    dsimp only []
    rw [hg]
    simp only [Bool.false_eq_true, if_false]
    rw [if_pos hsn]
    exact ⟨_, rfl⟩

/-- C7: a successful `delegation` call for a locally held identifier with a
known delegator pins exactly one unanchored escrow record keyed by the
event's `(pre, said)`, appends exactly one witness-anchor query for the
seal `(pre, sn, said)` against the delegator's prefix, and appends exactly
two messages to the delegator under topic `delegate`: the
delegation-request envelope and the raw event. -/
theorem initiate_effects (st st' : St) (pre : String) (snArg : Option Nat)
    (proxy : Option String) (hab : Hab) (dkever : Kever) (srdr : Serder)
    (hhab : alookup st.habs pre = some hab)
    (hdk : alookup st.kevers hab.kever.delegator = some dkever)
    (hev : hab.ownEvents[snArg.getD hab.kever.sn]? = some srdr)
    (hsp : srdr.pre = pre)
    (hok : delegation st pre snArg proxy = .ok st') :
    ∃ phab smids,
      st'.dune = apin st.dune (pre, srdr.said) srdr ∧
      st'.witqQueries = st.witqQueries ++
        [{ src := phab, pre := dkever.prefixer, anchor := anchorOf srdr }] ∧
      st'.postmanSends = st.postmanSends ++
        [{ src := phab, dest := hab.kever.delegator, topic := "delegate",
           body := .exnMsg (delegateRequestExn hab.kever.delegator srdr (some smids)) },
         { src := phab, dest := hab.kever.delegator, topic := "delegate",
           body := .evtMsg srdr }] := by
  obtain ⟨phab, smids, _, hst⟩ :=
    delegation_ok_cases st st' pre snArg proxy hab dkever srdr hhab hdk hev hok
  subst hst
  subst hsp
  exact ⟨phab, smids, rfl, rfl, rfl⟩

/-- C10: for a non-group locally held identifier a successful `delegation`
builds the delegation-request envelope with `aids` bound to the empty list
(the `aids` key is present since `[]` is not `None`), and the
envelope-construction helper `delegateRequestExn` omits the key exactly
when called with `aids = None`. -/
theorem aids_present_nongroup (st st' : St) (pre : String) (snArg : Option Nat)
    (proxy : Option String) (hab : Hab) (dkever : Kever) (srdr : Serder)
    (hhab : alookup st.habs pre = some hab)
    (hdk : alookup st.kevers hab.kever.delegator = some dkever)
    (hev : hab.ownEvents[snArg.getD hab.kever.sn]? = some srdr)
    (hng : hab.isGroup = false)
    (hok : delegation st pre snArg proxy = .ok st') :
    (∃ phab,
      st'.postmanSends = st.postmanSends ++
        [{ src := phab, dest := hab.kever.delegator, topic := "delegate",
           body := .exnMsg (delegateRequestExn hab.kever.delegator srdr (some [])) },
         { src := phab, dest := hab.kever.delegator, topic := "delegate",
           body := .evtMsg srdr }])
    ∧ (∀ delpre ked aids, (delegateRequestExn delpre ked aids).payload.aids = aids) := by
  obtain ⟨phab, smids, hcase, hst⟩ :=
    delegation_ok_cases st st' pre snArg proxy hab dkever srdr hhab hdk hev hok
  subst hst
  rcases hcase with ⟨hg, _, _⟩ | ⟨_, _, _, hs⟩ | ⟨_, _, _, hs⟩
  · rw [hg] at hng
    exact absurd hng (by simp)
  · subst hs
    exact ⟨⟨phab, rfl⟩, fun _ _ _ => rfl⟩
  · subst hs
    exact ⟨⟨phab, rfl⟩, fun _ _ _ => rfl⟩

/-- C9: the delegation-request handler drops a message (produces no
notification) when `pre` is absent, `payload` is absent, the payload lacks
`ked` or `delpre`, or `delpre` is not a locally held identifier; otherwise
it hands the Notifier exactly one record with the sender prefix as `src`,
route `/delegate/request`, the payload's `delpre` and `ked`, and `aids`
exactly when present in the payload; and a dropped message never stops the
loop from processing the remaining queue. -/
theorem delegate_request_handler_spec (habs : List String) (msg : ReqMsg) :
    ((msg.pre = none ∨ msg.payload = none ∨
       (∃ pay, msg.payload = some pay ∧ (pay.ked = none ∨ pay.delpre = none)) ∨
       (∃ pay d, msg.payload = some pay ∧ pay.delpre = some d ∧ d ∉ habs)) →
      handleMsg habs msg = none)
    ∧ (∀ p pay ked d, msg.pre = some p → msg.payload = some pay → pay.ked = some ked →
        pay.delpre = some d → d ∈ habs →
        handleMsg habs msg =
          some { src := p, r := delegateRequestResource, delpre := d, ked := ked,
                 aids := pay.aids })
    ∧ (∀ msgs : List ReqMsg, handleMsg habs msg = none →
        processRequestMsgs habs (msg :: msgs) = processRequestMsgs habs msgs) := by
  obtain ⟨mpre, mpay⟩ := msg
  refine ⟨?_, ?_, ?_⟩
  · rintro (hp | hp | ⟨pay, hp, hkd⟩ | ⟨pay, d, hp, hd, hmem⟩)
    · simp only at hp
      subst hp
      rfl
    · simp only at hp
      subst hp
      cases mpre <;> rfl
    · simp only at hp
      subst hp
      cases mpre with
      | none => rfl
      | some p =>
        obtain ⟨ked, delpre, aids⟩ := pay
        rcases hkd with hk | hk <;> simp only at hk <;> subst hk
        · rfl
        · cases ked <;> rfl
    · simp only at hp
      subst hp
      cases mpre with
      | none => rfl
      | some p =>
        obtain ⟨ked, delpre, aids⟩ := pay
        simp only at hd
        subst hd
        cases ked with
        | none => rfl
        | some k =>
          unfold handleMsg
          dsimp only []
          rw [if_neg hmem]
  · intro p pay ked d hp hpay hk hd hmem
    simp only at hp hpay
    subst hp
    subst hpay
    obtain ⟨mked, mdelpre, maids⟩ := pay
    simp only at hk hd
    subst hk
    subst hd
    unfold handleMsg
    dsimp only []
    rw [if_pos hmem]
  · intro msgs hnone
    unfold processRequestMsgs
    rw [List.filterMap_cons, hnone]

theorem findAnchoringEvent_isSome_iff (log : List DEvent) (a : Seal) :
    (findAnchoringEvent log a).isSome ↔ ∃ e ∈ log, a ∈ e.seals := by
  simp [findAnchoringEvent, List.find?_isSome]

theorem findAnchoringEvent_eq_none_iff (log : List DEvent) (a : Seal) :
    findAnchoringEvent log a = none ↔ ¬ ∃ e ∈ log, a ∈ e.seals := by
  rw [← findAnchoringEvent_isSome_iff]
  cases findAnchoringEvent log a <;> simp

theorem tickN_noSeal_invariant (n : Nat) (st st' : St) (k : String × String)
    (serder : Serder)
    (hrec : alookup st.dune k = some serder)
    (hnd : (st.dune.map Prod.fst).Nodup)
    (hns : noSealAt st k serder)
    (hnpw : alookup st.dpwe k = none)
    (h : tickN n st = .ok st') :
    alookup st'.dune k = some serder ∧ alookup st'.dpwe k = none := by
  induction n generalizing st with
  | zero =>
    unfold tickN at h
    simp only [Except.ok.injEq] at h
    subst h
    exact ⟨hrec, hnpw⟩
  | succ m ih =>
    obtain ⟨st1, htick, hrest⟩ := tickN_succ_cases m st st' h
    obtain ⟨stu, hu, hpw⟩ := processEscrows_cases st st1 htick
    have hu' : runSteps stepUnanchored st.dune st = .ok stu := hu
    have hpw' : runSteps stepPartialWitness stu.dpwe stu = .ok st1 := hpw
    have hits : ∀ it ∈ st.dune, it.1 = k → it.2 = serder := by
      intro it hit hk1
      obtain ⟨k1, v1⟩ := it
      simp only at hk1
      subst hk1
      exact alookup_value_of_nodup st.dune k1 serder v1 hnd hrec hit
    obtain ⟨hd_eq, hp_eq⟩ := runUnanchored_noSeal st.dune st stu k serder hits hns hu'
    obtain ⟨_, hkvu, _, _, hdlu, _⟩ := runUnanchored_frame st.dune st stu hu'
    have hndu : (stu.dune.map Prod.fst).Nodup := runUnanchored_nodup st.dune st stu hnd hu'
    have hnsu : noSealAt stu k serder := noSealAt_of_frame st stu k serder hkvu hdlu hns
    obtain ⟨_, hkv1, hdu1, _, _, hdl1, _, _⟩ := runPW_frame stu.dpwe stu st1 hpw'
    have hrec1 : alookup st1.dune k = some serder := by
      rw [hdu1, hd_eq]
      exact hrec
    have hnd1 : (st1.dune.map Prod.fst).Nodup := hdu1 ▸ hndu
    have hns1 : noSealAt st1 k serder := noSealAt_of_frame stu st1 k serder hkv1 hdl1 hnsu
    have hnpw1 : alookup st1.dpwe k = none :=
      runPW_dpwe_none stu.dpwe stu st1 k (hp_eq.trans hnpw) hpw'
    exact ih st1 hrec1 hnd1 hns1 hnpw1 hrest

/-- C1: an unanchored escrow record is moved by the unanchored scan to the
partial-witness escrow exactly when the delegator's log contains an event
anchoring the exact seal `(pre, sn, said)`; when no such seal exists the
record stays unanchored, untouched by any number of repeated ticks. -/
theorem unanchored_promotion_iff_seal (st : St) (pre said : String) (serder : Serder)
    (kever dkever : Kever)
    (hrec : alookup st.dune (pre, said) = some serder)
    (hnd : (st.dune.map Prod.fst).Nodup)
    (hpre : serder.pre = pre) (hsaid : serder.said = said)
    (hk : alookup st.kevers pre = some kever)
    (hdk : alookup st.kevers kever.delegator = some dkever)
    (hnpw : alookup st.dpwe (pre, said) = none) :
    ((∃ e ∈ getLog st dkever.prefixer, Seal.mk pre serder.sn said ∈ e.seals) →
      ∀ st', processUnanchoredEscrow st = .ok st' →
        alookup st'.dune (pre, said) = none ∧
          alookup st'.dpwe (pre, said) = some serder)
    ∧ ((¬ ∃ e ∈ getLog st dkever.prefixer, Seal.mk pre serder.sn said ∈ e.seals) →
      ∀ n st', tickN n st = .ok st' →
        alookup st'.dune (pre, said) = some serder ∧
          alookup st'.dpwe (pre, said) = none) := by
  have hanchor : anchorOf serder = Seal.mk pre serder.sn said := by
    rw [anchorOf, hpre, hsaid]
  rw [← hanchor]
  constructor
  · intro hex st' hrun
    have hsf : sealFoundAt st (pre, said) serder := by
      intro kv hkv dkv hdkv
      simp only at hkv
      rw [hk] at hkv
      cases hkv
      rw [hdk] at hdkv
      cases hdkv
      exact (findAnchoringEvent_isSome_iff _ _).mpr hex
    have hmem : ((pre, said), serder) ∈ st.dune := alookup_mem st.dune (pre, said) serder hrec
    exact runUnanchored_found st.dune st st' (pre, said) serder hnd hmem hsf hrun
  · intro hnone n st' hrun
    have hns : noSealAt st (pre, said) serder := by
      intro kv hkv dkv hdkv
      simp only at hkv
      rw [hk] at hkv
      cases hkv
      rw [hdk] at hdkv
      cases hdkv
      exact (findAnchoringEvent_eq_none_iff _ _).mpr hnone
    exact tickN_noSeal_invariant n st st' (pre, said) serder hrec hnd hns hnpw hrun

/-- C2: a partial-witness escrow record is promoted by the partial-witness
scan exactly when the collected witness signatures for the event's digest
equal the identifier's configured witness-set size and, when that size is
positive, a matching completion cue `(pre, sn)` is present; on promotion
the record is removed and the completion record `(pre, sn) -> said` is
written; in every other case the record and the completion index entry are
untouched. -/
theorem partial_witness_promotion_iff (st : St) (pre said : String) (serder : Serder)
    (kever : Kever)
    (hrec : alookup st.dpwe (pre, said) = some serder)
    (hnd : (st.dpwe.map Prod.fst).Nodup)
    (hpre : serder.pre = pre) (hsaid : serder.said = said)
    (hk : alookup st.kevers pre = some kever)
    (hcd : alookup st.cdel (pre, serder.sn) = none)
    (hdisj : ∀ it ∈ st.dpwe, it.1 ≠ (pre, said) → (it.1.1, it.2.sn) ≠ (pre, serder.sn)) :
    ∀ st', processPartialWitnessEscrow st = .ok st' →
      ((((alookup st.wigs (pre, said)).getD []).length = kever.wits.length ∧
        (0 < kever.wits.length →
          ∃ c ∈ st.witDoerCues, c.pre = pre ∧ c.sn = serder.sn)) →
        alookup st'.dpwe (pre, said) = none ∧
          alookup st'.cdel (pre, serder.sn) = some said)
      ∧ (¬ (((alookup st.wigs (pre, said)).getD []).length = kever.wits.length ∧
        (0 < kever.wits.length →
          ∃ c ∈ st.witDoerCues, c.pre = pre ∧ c.sn = serder.sn)) →
        alookup st'.dpwe (pre, said) = some serder ∧
          alookup st'.cdel (pre, serder.sn) = none) := by
  intro st' hrun
  have hrun' : runSteps stepPartialWitness st.dpwe st = .ok st' := hrun
  have hits : ∀ it ∈ st.dpwe, it.1 = (pre, said) → it.2 = serder := by
    intro it hit hk1
    obtain ⟨k1, v1⟩ := it
    simp only at hk1
    subst hk1
    exact alookup_value_of_nodup st.dpwe (pre, said) serder v1 hnd hrec hit
  have hmem : ((pre, said), serder) ∈ st.dpwe := alookup_mem st.dpwe (pre, said) serder hrec
  have hcondiff :
      ((((alookup st.wigs (pre, said)).getD []).length = kever.wits.length ∧
        (0 < kever.wits.length →
          ∃ c ∈ st.witDoerCues, c.pre = pre ∧ c.sn = serder.sn))) ↔
        promoCond st pre serder kever := by
    unfold promoCond
    rw [hpre, hsaid]
  constructor
  · intro hc
    have hp : promoCond st pre serder kever := hcondiff.mp hc
    have := runPW_promo st.dpwe st st' pre said serder kever hits hdisj hmem hk hcd hp hrun'
    rw [hsaid] at this
    exact this
  · intro hc
    have hnp : ¬ promoCond st pre serder kever := fun hp => hc (hcondiff.mpr hp)
    obtain ⟨g1, g2⟩ :=
      runPW_notPromo st.dpwe st st' pre said serder kever hits hdisj hk hnp hrun'
    rw [hrec] at g1
    rw [hcd] at g2
    exact ⟨g1, g2⟩

/-! ### The zero-witness single-record scenario, step by step -/

theorem processUnanchored_singleton (st : St) (pre said : String) (serder : Serder)
    (kever dkever : Kever) (dserder : DEvent)
    (hdune : st.dune = [((pre, said), serder)])
    (hk : alookup st.kevers pre = some kever)
    (hdk : alookup st.kevers kever.delegator = some dkever)
    (hf : findAnchoringEvent (getLog st dkever.prefixer) (anchorOf serder) = some dserder) :
    processUnanchoredEscrow st =
      .ok { st with
            aes := apin st.aes (kever.prefixer, kever.serderSaid)
              (dserder.sn, dserder.said),
            witDoerMsgs := st.witDoerMsgs ++ [{ pre := pre, sn := serder.sn }],
            dpwe := apin st.dpwe (pre, said) serder,
            dune := arem st.dune (pre, said) } := by
  have hstep1 : stepUnanchored st ((pre, said), serder) =
      .ok { st with
            aes := apin st.aes (kever.prefixer, kever.serderSaid)
              (dserder.sn, dserder.said),
            witDoerMsgs := st.witDoerMsgs ++ [{ pre := pre, sn := serder.sn }],
            dpwe := apin st.dpwe (pre, said) serder,
            dune := arem st.dune (pre, said) } := by
    unfold stepUnanchored
    dsimp only []
    rw [hk]
    dsimp only []
    rw [hdk]
    dsimp only []
    rw [hf]
  show runSteps stepUnanchored st.dune st = _
  rw [hdune]
  simp only [runSteps, hstep1, hdune]

theorem oneTick_zeroWits_detail (st : St) (pre said : String) (serder : Serder)
    (kever dkever : Kever) (dserder : DEvent)
    (hdune : st.dune = [((pre, said), serder)])
    (hdpwe : st.dpwe = [])
    (hsaid : serder.said = said)
    (hk : alookup st.kevers pre = some kever)
    (hdk : alookup st.kevers kever.delegator = some dkever)
    (hwits : kever.wits = [])
    (hf : findAnchoringEvent (getLog st dkever.prefixer) (anchorOf serder) = some dserder)
    (hwigs : alookup st.wigs (pre, said) = none)
    (hcd : alookup st.cdel (pre, serder.sn) = none) :
    ∃ st1 st2,
      processUnanchoredEscrow st = .ok st1 ∧
      alookup st1.dune (pre, said) = none ∧
      alookup st1.dpwe (pre, said) = some serder ∧
      processPartialWitnessEscrow st1 = .ok st2 ∧
      processEscrows st = .ok st2 ∧
      alookup st2.cdel (pre, serder.sn) = some said ∧
      alookup st2.dune (pre, said) = none ∧
      alookup st2.dpwe (pre, said) = none := by
  have hu : processUnanchoredEscrow st =
      .ok { st with
            aes := apin st.aes (kever.prefixer, kever.serderSaid)
              (dserder.sn, dserder.said),
            witDoerMsgs := st.witDoerMsgs ++ [{ pre := pre, sn := serder.sn }],
            dpwe := apin st.dpwe (pre, said) serder,
            dune := arem st.dune (pre, said) } :=
    processUnanchored_singleton st pre said serder kever dkever dserder hdune hk hdk hf
  have hdpwe1 : apin st.dpwe (pre, said) serder = [((pre, said), serder)] := by
    rw [hdpwe]
    rfl
  have hstep2 : stepPartialWitness
      { st with
        aes := apin st.aes (kever.prefixer, kever.serderSaid)
          (dserder.sn, dserder.said),
        witDoerMsgs := st.witDoerMsgs ++ [{ pre := pre, sn := serder.sn }],
        dpwe := apin st.dpwe (pre, said) serder,
        dune := arem st.dune (pre, said) } ((pre, said), serder) =
      .ok { st with
            aes := apin st.aes (kever.prefixer, kever.serderSaid)
              (dserder.sn, dserder.said),
            witDoerMsgs := st.witDoerMsgs ++ [{ pre := pre, sn := serder.sn }],
            dpwe := arem (apin st.dpwe (pre, said) serder) (pre, said),
            dune := arem st.dune (pre, said),
            cdel := aput st.cdel (pre, serder.sn) serder.said } := by
    unfold stepPartialWitness
    dsimp only []
    rw [hk]
    dsimp only []
    rw [hsaid, hwigs, hwits]
    simp
  have hpw : processPartialWitnessEscrow
      { st with
        aes := apin st.aes (kever.prefixer, kever.serderSaid)
          (dserder.sn, dserder.said),
        witDoerMsgs := st.witDoerMsgs ++ [{ pre := pre, sn := serder.sn }],
        dpwe := apin st.dpwe (pre, said) serder,
        dune := arem st.dune (pre, said) } =
      .ok { st with
            aes := apin st.aes (kever.prefixer, kever.serderSaid)
              (dserder.sn, dserder.said),
            witDoerMsgs := st.witDoerMsgs ++ [{ pre := pre, sn := serder.sn }],
            dpwe := arem (apin st.dpwe (pre, said) serder) (pre, said),
            dune := arem st.dune (pre, said),
            cdel := aput st.cdel (pre, serder.sn) serder.said } := by
    show runSteps stepPartialWitness (apin st.dpwe (pre, said) serder) _ = _
    rw [hdpwe1] at hstep2 ⊢
    simp only [runSteps, hstep2]
  refine ⟨_, _, hu, ?_, ?_, hpw, ?_, ?_, ?_, ?_⟩
  · exact alookup_arem_self st.dune (pre, said)
  · exact alookup_apin_self st.dpwe (pre, said) serder
  · unfold processEscrows
    rw [hu]
    dsimp only []
    rw [hpw]
  · show alookup (aput st.cdel (pre, serder.sn) serder.said) (pre, serder.sn) = some said
    rw [alookup_aput_self_of_none st.cdel (pre, serder.sn) serder.said hcd, hsaid]
  · exact alookup_arem_self st.dune (pre, said)
  · exact alookup_arem_self (apin st.dpwe (pre, said) serder) (pre, said)

/-- A concrete state: delegated identifier `D` with empty witness set, one
unanchored escrow record for its event at sn 1 with digest `E1` (which is
also the kever's current latest event), and the delegator `P`'s log
already anchoring the matching seal `(D, 1, E1)`. -/
def cex4 : St :=
  { habs := [],
    kevers := [("D", { prefixer := "D", sn := 1, serderSaid := "E1", delegator := "P",
                       wits := [] }),
               ("P", { prefixer := "P", sn := 10, serderSaid := "PD10", delegator := "P",
                       wits := [] })],
    dune := [(("D", "E1"), { pre := "D", sn := 1, said := "E1" })],
    dpwe := [], cdel := [], aes := [], wigs := [],
    delLogs := [("P", [{ sn := 10, said := "PD10",
                         seals := [{ i := "D", s := 1, d := "E1" }] }])],
    witDoerMsgs := [], witDoerCues := [], postmanSends := [], witqQueries := [] }

/-- C4 counterexample: in the concrete state `cex4` the record starts in
the unanchored escrow; the unanchored scan of a single tick moves it to
the partial-witness escrow, and the partial-witness scan of that same tick
already promotes it to Completed — the record IS promoted twice within one
tick, so the fixed scan order does not prevent same-tick double promotion. -/
theorem same_tick_double_promotion_cex :
    alookup cex4.dune ("D", "E1") = some { pre := "D", sn := 1, said := "E1" } ∧
    (processUnanchoredEscrow cex4).map
      (fun s => (alookup s.dune ("D", "E1"), alookup s.dpwe ("D", "E1"))) =
      .ok (none, some { pre := "D", sn := 1, said := "E1" }) ∧
    (processEscrows cex4).map
      (fun s => (alookup s.cdel ("D", 1), alookup s.dpwe ("D", "E1"),
                 alookup s.dune ("D", "E1"))) =
      .ok (some "E1", none, none) := by
  decide

/-- C4 (amended): within one tick the unanchored scan runs before the
partial-witness scan, so a record whose seal is found is already in the
partial-witness escrow when the second scan iterates it; the record is
therefore visible to the same tick's partial-witness scan and, with an
empty witness set, is promoted twice within the single tick: Unanchored to
PartiallyWitnessed in the first scan and on to Completed in the second. -/
theorem same_tick_double_promotion (st : St) (pre said : String) (serder : Serder)
    (kever dkever : Kever) (dserder : DEvent)
    (hdune : st.dune = [((pre, said), serder)])
    (hdpwe : st.dpwe = [])
    (hsaid : serder.said = said)
    (hk : alookup st.kevers pre = some kever)
    (hdk : alookup st.kevers kever.delegator = some dkever)
    (hwits : kever.wits = [])
    (hf : findAnchoringEvent (getLog st dkever.prefixer) (anchorOf serder) = some dserder)
    (hwigs : alookup st.wigs (pre, said) = none)
    (hcd : alookup st.cdel (pre, serder.sn) = none) :
    ∃ st1 st2,
      processUnanchoredEscrow st = .ok st1 ∧
      alookup st1.dpwe (pre, said) = some serder ∧
      alookup st1.dune (pre, said) = none ∧
      processPartialWitnessEscrow st1 = .ok st2 ∧
      processEscrows st = .ok st2 ∧
      alookup st2.dpwe (pre, said) = none ∧
      alookup st2.cdel (pre, serder.sn) = some said := by
  obtain ⟨st1, st2, h1, h2, h3, h4, h5, h6, h7, h8⟩ :=
    oneTick_zeroWits_detail st pre said serder kever dkever dserder hdune hdpwe hsaid hk hdk
      hwits hf hwigs hcd
  exact ⟨st1, st2, h1, h3, h2, h4, h5, h8, h6⟩

/-- Witness for the amended C4 at the concrete state `cex4`. -/
theorem same_tick_double_promotion_witness :
    (processEscrows cex4).map (fun s => alookup s.cdel ("D", 1)) = .ok (some "E1") := by
  obtain ⟨st1, st2, h1, h2, h3, h4, h5, h6, h7⟩ :=
    same_tick_double_promotion cex4 "D" "E1" { pre := "D", sn := 1, said := "E1" }
      { prefixer := "D", sn := 1, serderSaid := "E1", delegator := "P", wits := [] }
      { prefixer := "P", sn := 10, serderSaid := "PD10", delegator := "P", wits := [] }
      { sn := 10, said := "PD10", seals := [{ i := "D", s := 1, d := "E1" }] }
      (by decide) (by decide) (by decide) (by decide) (by decide) (by decide) (by decide)
      (by decide) (by decide)
  rw [h5]
  simp only [Except.map]
  rw [h7]

/-- C5: zero-witness end-to-end scenario: after a successful
`delegation(D, sn=1)` has pinned the unanchored record, a single
escrow-processing tick in which the delegator's log already anchors the
seal `(D, 1, said)` takes the record all the way to Completed: the
completion record is written within that one tick, with no wait for
witness receipts or cues. -/
theorem zero_witness_single_tick (st : St) (preD said : String) (hab : Hab)
    (kever dkever : Kever) (serder : Serder) (dserder : DEvent)
    (hhab : alookup st.habs preD = some hab)
    (hdkv : alookup st.kevers hab.kever.delegator = some dkever)
    (hng : hab.isGroup = false)
    (hsn1 : hab.kever.sn = 1)
    (hev : hab.ownEvents[1]? = some serder)
    (hpre : serder.pre = preD) (hsn : serder.sn = 1) (hsaid : serder.said = said)
    (hk : alookup st.kevers preD = some kever)
    (hcons : kever.delegator = hab.kever.delegator)
    (hwits : kever.wits = [])
    (hdune0 : st.dune = []) (hdpwe0 : st.dpwe = [])
    (hf : findAnchoringEvent (getLog st dkever.prefixer) (Seal.mk preD 1 said) =
      some dserder)
    (hwigs : alookup st.wigs (preD, said) = none)
    (hcd : alookup st.cdel (preD, 1) = none) :
    ∃ st1 st2, delegation st preD (some 1) none = .ok st1 ∧
      processEscrows st1 = .ok st2 ∧
      alookup st2.cdel (preD, 1) = some said ∧
      alookup st2.dune (preD, said) = none ∧
      alookup st2.dpwe (preD, said) = none := by
  have hdel : delegation st preD (some 1) none =
      .ok { st with
            postmanSends := st.postmanSends ++
              [{ src := hab.pre, dest := hab.kever.delegator, topic := "delegate",
                 body := .exnMsg (delegateRequestExn hab.kever.delegator serder
                   (some [])) },
               { src := hab.pre, dest := hab.kever.delegator, topic := "delegate",
                 body := .evtMsg serder }],
            witqQueries := st.witqQueries ++
              [{ src := hab.pre, pre := dkever.prefixer, anchor := anchorOf serder }],
            dune := apin st.dune (serder.pre, serder.said) serder } := by
    unfold delegation
    rw [hhab]
    dsimp only []
    rw [hdkv]
    dsimp only []
    rw [show ((some 1 : Option Nat).getD hab.kever.sn) = 1 from rfl]
    rw [hev]
    dsimp only []
    rw [hng]
    simp only [Bool.false_eq_true, if_false]
    rw [if_pos (by rw [hsn1]; exact Nat.zero_lt_one)]
  have hanchor : anchorOf serder = Seal.mk preD 1 said := by
    rw [anchorOf, hpre, hsn, hsaid]
  obtain ⟨stA, stB, _, _, _, _, hproc, hc1, hc2, hc3⟩ :=
    oneTick_zeroWits_detail
      { st with
        postmanSends := st.postmanSends ++
          [{ src := hab.pre, dest := hab.kever.delegator, topic := "delegate",
             body := .exnMsg (delegateRequestExn hab.kever.delegator serder (some [])) },
           { src := hab.pre, dest := hab.kever.delegator, topic := "delegate",
             body := .evtMsg serder }],
        witqQueries := st.witqQueries ++
          [{ src := hab.pre, pre := dkever.prefixer, anchor := anchorOf serder }],
        dune := apin st.dune (serder.pre, serder.said) serder }
      preD said serder kever dkever dserder
      (by show apin st.dune (serder.pre, serder.said) serder = _
          rw [hdune0, hpre, hsaid]
          rfl)
      hdpwe0
      hsaid
      hk
      (hcons ▸ hdkv)
      hwits
      (by show findAnchoringEvent (getLog st dkever.prefixer) (anchorOf serder) = _
          rw [hanchor]
          exact hf)
      hwigs
      (by rw [hsn]; exact hcd)
  refine ⟨_, stB, hdel, hproc, ?_, hc2, hc3⟩
  rw [← hsn]
  exact hc1

/-- A concrete state where the escrowed event's digest `E1` differs from
the digest `E2` of the kever's current latest event: identifier `D` is at
sn 2 with latest digest `E2` while the escrowed delegated event is its
sn-1 event with digest `E1`, and the delegator `P`'s log anchors the
matching seal. -/
def cex8 : St :=
  { habs := [],
    kevers := [("D", { prefixer := "D", sn := 2, serderSaid := "E2", delegator := "P",
                       wits := [] }),
               ("P", { prefixer := "P", sn := 10, serderSaid := "PD10", delegator := "P",
                       wits := [] })],
    dune := [(("D", "E1"), { pre := "D", sn := 1, said := "E1" })],
    dpwe := [], cdel := [], aes := [], wigs := [],
    delLogs := [("P", [{ sn := 10, said := "PD10",
                         seals := [{ i := "D", s := 1, d := "E1" }] }])],
    witDoerMsgs := [], witDoerCues := [], postmanSends := [], witqQueries := [] }

/-- C8 counterexample: processing the unanchored escrow of `cex8` stores
the authorizer seal couple under the digest key `("D", "E2")` — the
kever's current latest event digest — and stores nothing under the
escrowed event's own digest key `("D", "E1")`, refuting the claim that the
key is formed from the escrowed event's own digest for every record. -/
theorem aes_key_cex :
    alookup cex8.dune ("D", "E1") = some { pre := "D", sn := 1, said := "E1" } ∧
    (processUnanchoredEscrow cex8).map
      (fun s => (alookup s.aes ("D", "E1"), alookup s.aes ("D", "E2"))) =
      .ok (none, some (10, "PD10")) := by
  decide

/-- C8 (amended): when the unanchored scan finds the matching seal, the
authorizer seal couple (delegator's sequence number and digest) is stored
under the digest key formed from the kever's prefix and the digest of the
kever's CURRENT latest event (`kever.serder.said`); this equals the
escrowed event's own digest only when the escrowed event is the kever's
latest, and when the two digests differ nothing is written under the
escrowed event's own digest key. -/
theorem aes_keyed_by_kever_current (st : St) (pre said : String) (serder : Serder)
    (kever dkever : Kever) (dserder : DEvent)
    (hdune : st.dune = [((pre, said), serder)])
    (hk : alookup st.kevers pre = some kever)
    (hdk : alookup st.kevers kever.delegator = some dkever)
    (hf : findAnchoringEvent (getLog st dkever.prefixer) (anchorOf serder) =
      some dserder) :
    ∃ st', processUnanchoredEscrow st = .ok st' ∧
      alookup st'.aes (kever.prefixer, kever.serderSaid) =
        some (dserder.sn, dserder.said) ∧
      (kever.serderSaid ≠ said →
        alookup st'.aes (kever.prefixer, said) = alookup st.aes (kever.prefixer, said)) := by
  have hu := processUnanchored_singleton st pre said serder kever dkever dserder hdune hk hdk hf
  refine ⟨_, hu, ?_, ?_⟩
  · exact alookup_apin_self st.aes (kever.prefixer, kever.serderSaid)
      (dserder.sn, dserder.said)
  · intro hne
    exact alookup_apin_ne st.aes (kever.prefixer, kever.serderSaid) (kever.prefixer, said)
      (dserder.sn, dserder.said) (by intro h; exact hne (congrArg Prod.snd h).symm)

/-! ### Concrete witness states -/

/-- The result of the unanchored scan on `cex4`. -/
def cex4u : St :=
  { cex4 with
    aes := [(("D", "E1"), (10, "PD10"))],
    witDoerMsgs := [{ pre := "D", sn := 1 }],
    dpwe := [(("D", "E1"), { pre := "D", sn := 1, said := "E1" })],
    dune := [] }

/-- Witness for C1 at the concrete state `cex4` (seal present). -/
theorem unanchored_promotion_iff_seal_witness :
    alookup cex4u.dune ("D", "E1") = none ∧
    alookup cex4u.dpwe ("D", "E1") = some { pre := "D", sn := 1, said := "E1" } := by
  have h := unanchored_promotion_iff_seal cex4 "D" "E1"
    { pre := "D", sn := 1, said := "E1" }
    { prefixer := "D", sn := 1, serderSaid := "E1", delegator := "P", wits := [] }
    { prefixer := "P", sn := 10, serderSaid := "PD10", delegator := "P", wits := [] }
    (by decide) (by decide) (by decide) (by decide) (by decide) (by decide) (by decide)
  exact h.1 (by decide) cex4u (by decide)

/-- A concrete state with a partial-witness escrow record for identifier
`D` with one configured witness, the one receipt signature collected, and
the matching completion cue present. -/
def wpw : St :=
  { habs := [],
    kevers := [("D", { prefixer := "D", sn := 1, serderSaid := "E1", delegator := "P",
                       wits := ["W1"] })],
    dune := [],
    dpwe := [(("D", "E1"), { pre := "D", sn := 1, said := "E1" })],
    cdel := [], aes := [],
    wigs := [(("D", "E1"), ["wsig1"])],
    delLogs := [],
    witDoerMsgs := [], witDoerCues := [{ pre := "D", sn := 1 }],
    postmanSends := [], witqQueries := [] }

/-- The result of the partial-witness scan on `wpw`. -/
def wpwOut : St :=
  { wpw with
    dpwe := [],
    cdel := [(("D", 1), "E1")] }

/-- Witness for C2 at the concrete state `wpw` (quorum met, cue present). -/
theorem partial_witness_promotion_iff_witness :
    alookup wpwOut.dpwe ("D", "E1") = none ∧
    alookup wpwOut.cdel ("D", 1) = some "E1" := by
  have h := partial_witness_promotion_iff wpw "D" "E1"
    { pre := "D", sn := 1, said := "E1" }
    { prefixer := "D", sn := 1, serderSaid := "E1", delegator := "P", wits := ["W1"] }
    (by decide) (by decide) (by decide) (by decide) (by decide) (by decide) (by decide)
  exact (h wpwOut (by decide)).1 (by decide)

/-- A concrete state with one completion record `("D", 1) -> "E1"`. -/
def wcd : St :=
  { habs := [], kevers := [], dune := [], dpwe := [],
    cdel := [(("D", 1), "E1")], aes := [], wigs := [], delLogs := [],
    witDoerMsgs := [], witDoerCues := [], postmanSends := [], witqQueries := [] }

/-- Witness for C3 at the concrete state `wcd`. -/
theorem complete_spec_witness :
    complete wcd "D" 1 (some "E2") = .error "invalid delegation protocol escrowed event" ∧
    complete wcd "D" 1 none = .ok true ∧
    complete wcd "X" 0 none = .ok false := by
  refine ⟨?_, ?_, ?_⟩
  · exact ((complete_spec wcd "D" 1 (some "E2")).2 "E1" (by decide)).1 ⟨"E2", rfl, by decide⟩
  · exact ((complete_spec wcd "D" 1 none).2 "E1" (by decide)).2 (Or.inl rfl)
  · exact (complete_spec wcd "X" 0 none).1.mpr (by decide)

/-- A local non-group hab for identifier `D` at sn 1, delegated to `P`. -/
def whab : Hab :=
  { pre := "D", isGroup := false, mhab := "", smids := [],
    kever := { prefixer := "D", sn := 1, serderSaid := "E1", delegator := "P",
               wits := [] },
    ownEvents := [{ pre := "D", sn := 0, said := "E0" },
                  { pre := "D", sn := 1, said := "E1" }] }

/-- The zero-witness end-to-end scenario state: `D` held locally, delegator
`P` known, no escrows yet, and `P`'s log already anchoring `(D, 1, E1)`. -/
def wsc : St :=
  { habs := [("D", whab)],
    kevers := [("D", { prefixer := "D", sn := 1, serderSaid := "E1", delegator := "P",
                       wits := [] }),
               ("P", { prefixer := "P", sn := 10, serderSaid := "PD10", delegator := "P",
                       wits := [] })],
    dune := [], dpwe := [], cdel := [], aes := [], wigs := [],
    delLogs := [("P", [{ sn := 10, said := "PD10",
                         seals := [{ i := "D", s := 1, d := "E1" }] }])],
    witDoerMsgs := [], witDoerCues := [], postmanSends := [], witqQueries := [] }

/-- The state after `delegation wsc "D" (some 1) none`. -/
def wscd : St :=
  { wsc with
    postmanSends :=
      [{ src := "D", dest := "P", topic := "delegate",
         body := .exnMsg (delegateRequestExn "P" { pre := "D", sn := 1, said := "E1" }
           (some [])) },
       { src := "D", dest := "P", topic := "delegate",
         body := .evtMsg { pre := "D", sn := 1, said := "E1" } }],
    witqQueries := [{ src := "D", pre := "P", anchor := { i := "D", s := 1, d := "E1" } }],
    dune := [(("D", "E1"), { pre := "D", sn := 1, said := "E1" })] }

/-- Witness for C5 at the concrete scenario state `wsc`. -/
theorem zero_witness_single_tick_witness :
    (delegation wsc "D" (some 1) none).map
      (fun s1 => (processEscrows s1).map (fun s2 => alookup s2.cdel ("D", 1))) =
      .ok (.ok (some "E1")) := by
  obtain ⟨st1, st2, h1, h2, h3, _, _⟩ := zero_witness_single_tick wsc "D" "E1" whab
    { prefixer := "D", sn := 1, serderSaid := "E1", delegator := "P", wits := [] }
    { prefixer := "P", sn := 10, serderSaid := "PD10", delegator := "P", wits := [] }
    { pre := "D", sn := 1, said := "E1" }
    { sn := 10, said := "PD10", seals := [{ i := "D", s := 1, d := "E1" }] }
    (by decide) (by decide) (by decide) (by decide) (by decide) (by decide) (by decide)
    (by decide) (by decide) (by decide) (by decide) (by decide) (by decide) (by decide)
    (by decide) (by decide)
  rw [h1]
  simp only [Except.map]
  rw [h2]
  simp only [Except.map]
  rw [h3]

/-- An empty state: no habs at all. -/
def w6a : St :=
  { habs := [], kevers := [], dune := [], dpwe := [], cdel := [], aes := [], wigs := [],
    delLogs := [], witDoerMsgs := [], witDoerCues := [], postmanSends := [],
    witqQueries := [] }

/-- A hab for `D` still at its inception event (kever sn 0). -/
def whab0 : Hab :=
  { pre := "D", isGroup := false, mhab := "", smids := [],
    kever := { prefixer := "D", sn := 0, serderSaid := "E0", delegator := "P",
               wits := [] },
    ownEvents := [{ pre := "D", sn := 0, said := "E0" }] }

/-- `D` held locally but its delegator `P` has no verified kever. -/
def w6b : St :=
  { w6a with habs := [("D", whab0)] }

/-- `D` held locally at inception, delegator known, no proxy supplied. -/
def w6c : St :=
  { w6a with
    habs := [("D", whab0)],
    kevers := [("P", { prefixer := "P", sn := 10, serderSaid := "PD10", delegator := "P",
                       wits := [] })] }

/-- `D` held locally past inception (kever sn 1), delegator known. -/
def w6d : St :=
  { w6a with
    habs := [("D", whab)],
    kevers := [("P", { prefixer := "P", sn := 10, serderSaid := "PD10", delegator := "P",
                       wits := [] })] }

/-- Witness for C6 at concrete states covering all four cases. -/
theorem delegation_error_spec_witness :
    delegation w6a "X" none none = .error "is not a valid local AID for delegation" ∧
    delegation w6b "D" none none =
      .error "delegator not found, unable to process delegation" ∧
    delegation w6c "D" none none = .error "no proxy to send messages for delegation" ∧
    (delegation w6d "D" none none).map (fun _ => ()) = .ok () := by
  refine ⟨?_, ?_, ?_, ?_⟩
  · exact (delegation_error_spec w6a "X" none none).1 (by decide)
  · exact (delegation_error_spec w6b "D" none none).2.1 whab0 (by decide) (by decide)
  · exact (delegation_error_spec w6c "D" none none).2.2.1 whab0
      { prefixer := "P", sn := 10, serderSaid := "PD10", delegator := "P", wits := [] }
      { pre := "D", sn := 0, said := "E0" }
      (by decide) (by decide) (by decide) (by decide) (by decide) rfl
  · obtain ⟨st', h⟩ := (delegation_error_spec w6d "D" none none).2.2.2 whab
      { prefixer := "P", sn := 10, serderSaid := "PD10", delegator := "P", wits := [] }
      { pre := "D", sn := 1, said := "E1" }
      (by decide) (by decide) (by decide) (by decide) (by decide)
    rw [h]
    rfl

/-- Witness for C7 at the concrete scenario state `wsc`. -/
theorem initiate_effects_witness :
    wscd.dune = apin wsc.dune ("D", "E1") { pre := "D", sn := 1, said := "E1" } := by
  obtain ⟨phab, smids, h1, _, _⟩ := initiate_effects wsc wscd "D" (some 1) none whab
    { prefixer := "P", sn := 10, serderSaid := "PD10", delegator := "P", wits := [] }
    { pre := "D", sn := 1, said := "E1" }
    (by decide) (by decide) (by decide) (by decide) (by decide)
  exact h1

/-- The result of the unanchored scan on `cex8`. -/
def cex8u : St :=
  { cex8 with
    aes := [(("D", "E2"), (10, "PD10"))],
    witDoerMsgs := [{ pre := "D", sn := 1 }],
    dpwe := [(("D", "E1"), { pre := "D", sn := 1, said := "E1" })],
    dune := [] }

/-- Witness for the amended C8 at the concrete state `cex8`. -/
theorem aes_keyed_by_kever_current_witness :
    (processUnanchoredEscrow cex8).map (fun s => alookup s.aes ("D", "E2")) =
      .ok (some (10, "PD10")) := by
  obtain ⟨st', h1, h2, _⟩ := aes_keyed_by_kever_current cex8 "D" "E1"
    { pre := "D", sn := 1, said := "E1" }
    { prefixer := "D", sn := 2, serderSaid := "E2", delegator := "P", wits := [] }
    { prefixer := "P", sn := 10, serderSaid := "PD10", delegator := "P", wits := [] }
    { sn := 10, said := "PD10", seals := [{ i := "D", s := 1, d := "E1" }] }
    (by decide) (by decide) (by decide) (by decide)
  rw [h1]
  simp only [Except.map]
  exact congrArg Except.ok h2

/-- A well-formed inbound delegation request from sender `S` for local
delegator `P`. -/
def wmsgGood : ReqMsg :=
  { pre := some "S",
    payload := some { ked := some { pre := "D", sn := 1, said := "E1" },
                      delpre := some "P", aids := none } }

/-- An inbound delegation request missing `delpre`. -/
def wmsgBad : ReqMsg :=
  { pre := some "S",
    payload := some { ked := some { pre := "D", sn := 1, said := "E1" },
                      delpre := none, aids := none } }

/-- Witness for C9: the well-formed message produces exactly the expected
notification; the message missing `delpre` is dropped. -/
theorem delegate_request_handler_spec_witness :
    handleMsg ["P"] wmsgGood =
      some { src := "S", r := delegateRequestResource, delpre := "P",
             ked := { pre := "D", sn := 1, said := "E1" }, aids := none } ∧
    handleMsg ["P"] wmsgBad = none := by
  refine ⟨?_, ?_⟩
  · exact (delegate_request_handler_spec ["P"] wmsgGood).2.1 "S"
      { ked := some { pre := "D", sn := 1, said := "E1" }, delpre := some "P",
        aids := none }
      { pre := "D", sn := 1, said := "E1" } "P" rfl rfl rfl rfl (by decide)
  · exact (delegate_request_handler_spec ["P"] wmsgBad).1
      (Or.inr (Or.inr (Or.inl ⟨_, rfl, Or.inr rfl⟩)))

/-- Witness for C10 at the concrete scenario state `wsc`: the envelope of
the successful non-group initiate carries `aids = []`, and the helper
called directly with `aids = None` omits the field. -/
theorem aids_present_nongroup_witness :
    (delegateRequestExn "P" { pre := "D", sn := 1, said := "E1" } none).payload.aids =
      none := by
  obtain ⟨_, h2⟩ := aids_present_nongroup wsc wscd "D" (some 1) none whab
    { prefixer := "P", sn := 10, serderSaid := "PD10", delegator := "P", wits := [] }
    { pre := "D", sn := 1, said := "E1" }
    (by decide) (by decide) (by decide) (by decide) (by decide)
  exact h2 "P" { pre := "D", sn := 1, said := "E1" } none

end Delegating
